import Mathlib

/-!
# Webcam-controlled Arkanoid: queue, marker tracker and gesture heuristic

A shallow embedding of `headers/message_queue.h`, `headers/motion_detector.h` and the
thread loops of `sources/main.cpp`.

Conventions of the embedding.
* A C++ method that mutates its object becomes a function returning the new object;
  an output parameter (`T& out`) is passed in and returned.
* `float`/`double` quantities are rationals (exact arithmetic); `int` pixel quantities are
  integers (frame sizes keep every product far below `2^31`).
* The results of the OpenCV image operators (`findContours`, `contourArea`, `approxPolyDP`,
  `boundingRect`) are inputs of a cycle: a traced contour carries its points, its signed
  area and the bounding box of its simplified, rescaled polygon.
-/

/-! ## `message_queue<T>` (headers/message_queue.h) -/

/-- The class `message_queue<T>`: a `std::queue<T>` (front of the queue = head of the list)
and the size limit fixed by the constructor. The mutex serialises the calls, so each call is
one atomic state transition. -/
structure message_queue (T : Type) where
  _queue : List T
  _size_limit : Nat
deriving Repr, DecidableEq

namespace message_queue

variable {T : Type}

/-- Constructor `message_queue(size_t size_limit)`: an empty queue. -/
def new (size_limit : Nat) : message_queue T :=
  { _queue := [], _size_limit := size_limit }

/-- Method `try_push`: returns without pushing when `_queue.size() >= _size_limit`,
otherwise pushes at the back. -/
def try_push (q : message_queue T) (elem : T) : message_queue T :=
  if q._queue.length ≥ q._size_limit then q
  else { q with _queue := q._queue ++ [elem] }

/-- Method `try_pop(T& out)`: on an empty queue returns `false` and touches nothing;
otherwise copies the front into `out`, pops it and returns `true`.
The result is (return value, `out` afterwards, queue afterwards). -/
def try_pop (q : message_queue T) (out : T) : Bool × T × message_queue T :=
  match q._queue with
  | [] => (false, out, q)
  | x :: rest => (true, x, { q with _queue := rest })

/-- Calling `try_push` for each element of `xs`, in order. -/
def pushAll (q : message_queue T) (xs : List T) : message_queue T :=
  xs.foldl try_push q

/-- Outcome of a consumer loop `while (q.try_pop(out)) { record out; }`. -/
structure Drained (T : Type) where
  /-- The values obtained by the successful pops, in the order they were obtained. -/
  items : List T
  /-- True when the loop ended because `try_pop` returned `false`
  (false when the iteration budget ran out first). -/
  stopped : Bool
  /-- The caller's output variable after the loop. -/
  out : T
  /-- The queue after the loop. -/
  queue : message_queue T

/-- The consumer loop that calls `try_pop` until it returns `false`, with an iteration
budget `fuel`. -/
def popAll : Nat → message_queue T → T → Drained T
  | 0, q, out => { items := [], stopped := false, out := out, queue := q }
  | fuel + 1, q, out =>
    match try_pop q out with
    | (true, v, q1) =>
      let r := popAll fuel q1 v
      { r with items := v :: r.items }
    | (false, v, q1) => { items := [], stopped := true, out := v, queue := q1 }

end message_queue

/-! ## The OpenCV value types used by the tracker -/

namespace cv

/-- OpenCV's integer point (`cv::Point`, `cv::Point2i`). -/
structure Point where
  x : Int
  y : Int
deriving Repr, DecidableEq

/-- OpenCV's floating-point point (`cv::Point2f`), over exact arithmetic. -/
structure Point2f where
  x : ℚ
  y : ℚ
deriving DecidableEq

/-- OpenCV's integer rectangle (`cv::Rect`): top-left corner, width, height. -/
structure Rect where
  x : Int
  y : Int
  width : Int
  height : Int
deriving Repr, DecidableEq

/-- Default-constructed `cv::Rect`: all four fields zero. -/
def Rect.zero : Rect := { x := 0, y := 0, width := 0, height := 0 }

/-- Method `cv::Rect::area`: width times height. -/
def Rect.area (r : Rect) : Int := r.width * r.height

/-- Method `cv::Rect::contains`: the half-open test
`x <= pt.x && pt.x < x + width && y <= pt.y && pt.y < y + height`. -/
def Rect.contains (r : Rect) (pt : Point) : Bool :=
  decide (r.x ≤ pt.x) && decide (pt.x < r.x + r.width)
    && decide (r.y ≤ pt.y) && decide (pt.y < r.y + r.height)

/-- Rounding of `cvRound`, used when a `cv::Point2f` is converted to a `cv::Point`:
nearest integer, a tie going to the even neighbour. -/
def cvRound (v : ℚ) : Int :=
  let f := ⌊v⌋
  if v - f < 1 / 2 then f
  else if 1 / 2 < v - f then f + 1
  else if f % 2 = 0 then f else f + 1

/-- Conversion `cv::Point2f` to `cv::Point` (each coordinate through `cvRound`). -/
def Point2f.toPoint (p : Point2f) : Point := { x := cvRound p.x, y := cvRound p.y }

/-- Inverse of a 2x2 matrix by the adjugate formula. -/
def inv2 (M : Matrix (Fin 2) (Fin 2) ℚ) : Matrix (Fin 2) (Fin 2) ℚ :=
  (M 0 0 * M 1 1 - M 0 1 * M 1 0)⁻¹ • !![M 1 1, -M 0 1; -M 1 0, M 0 0]

/-- OpenCV's `cv::KalmanFilter` with 4 dynamic parameters, 2 measurement parameters and no
control (`KalmanFilter(4, 2, 0)`), over exact arithmetic. Column vectors are functions on
`Fin 4` or `Fin 2`. -/
structure KalmanFilter where
  statePre : Fin 4 → ℚ
  statePost : Fin 4 → ℚ
  transitionMatrix : Matrix (Fin 4) (Fin 4) ℚ
  measurementMatrix : Matrix (Fin 2) (Fin 4) ℚ
  processNoiseCov : Matrix (Fin 4) (Fin 4) ℚ
  measurementNoiseCov : Matrix (Fin 2) (Fin 2) ℚ
  errorCovPre : Matrix (Fin 4) (Fin 4) ℚ
  gain : Matrix (Fin 4) (Fin 2) ℚ
  errorCovPost : Matrix (Fin 4) (Fin 4) ℚ

namespace KalmanFilter

/-- What `KalmanFilter::init(4, 2, 0)` leaves: zero states, identity transition matrix,
identity noise covariances, zero measurement matrix, zero error covariances and gain. -/
def init : KalmanFilter :=
  { statePre := 0
    statePost := 0
    transitionMatrix := 1
    measurementMatrix := 0
    processNoiseCov := 1
    measurementNoiseCov := 1
    errorCovPre := 0
    gain := 0
    errorCovPost := 0 }

/-- Function `cv::setIdentity(m, s)` on an `r` by `c` matrix: `s` on the main diagonal,
zero elsewhere. -/
def setIdentity {r c : Nat} (s : ℚ) : Matrix (Fin r) (Fin c) ℚ :=
  Matrix.of fun i j => if i.val = j.val then s else 0

/-- Method `KalmanFilter::predict` with an empty control:
`statePre = A * statePost`, `errorCovPre = A * errorCovPost * Aᵀ + Q`, both copied to the
`Post` fields; the returned matrix is `statePre`. -/
def predict (k : KalmanFilter) : KalmanFilter :=
  let sp := k.transitionMatrix.mulVec k.statePost
  let ep := k.transitionMatrix * k.errorCovPost * k.transitionMatrix.transpose
              + k.processNoiseCov
  { k with statePre := sp, errorCovPre := ep, statePost := sp, errorCovPost := ep }

/-- Method `KalmanFilter::correct(measurement)`:
`temp2 = H * errorCovPre`, `temp3 = temp2 * Hᵀ + R`, `temp4 = temp3⁻¹ * temp2`
(the solution `solve(temp3, temp2, temp4, DECOMP_SVD)` returns for an invertible `temp3`),
`gain = temp4ᵀ`, `temp5 = measurement - H * statePre`,
`statePost = statePre + gain * temp5`, `errorCovPost = errorCovPre - gain * temp2`. -/
def correct (k : KalmanFilter) (measurement : Fin 2 → ℚ) : KalmanFilter :=
  let temp2 := k.measurementMatrix * k.errorCovPre
  let temp3 := temp2 * k.measurementMatrix.transpose + k.measurementNoiseCov
  let temp4 := inv2 temp3 * temp2
  let g := temp4.transpose
  let temp5 := measurement - k.measurementMatrix.mulVec k.statePre
  { k with gain := g
           statePost := k.statePre + g.mulVec temp5
           errorCovPost := k.errorCovPre - g * temp2 }

/-- The diagonal error covariance with variance `a` on both position components and `b`
on both velocity components. -/
def covDiag (a b : ℚ) : Matrix (Fin 4) (Fin 4) ℚ :=
  !![a, 0, 0, 0; 0, a, 0, 0; 0, 0, b, 0; 0, 0, 0, b]

/-- The four model matrices as the `Marker` constructor leaves them: identity transition
(from `init`), identity-pattern measurement matrix, process noise `0.1`, measurement
noise `10`. -/
def Configured (k : KalmanFilter) : Prop :=
  k.transitionMatrix = 1 ∧ k.measurementMatrix = setIdentity 1
    ∧ k.processNoiseCov = setIdentity (1 / 10) ∧ k.measurementNoiseCov = setIdentity 10

end KalmanFilter

end cv

/-! ## `Marker` (headers/motion_detector.h) -/

/-- The class `Marker`: last observed position (normalized), grip flag, Kalman filter. -/
structure Marker where
  _last_position : cv.Point2f
  _grip : Bool
  _kalman : cv.KalmanFilter

namespace Marker

open cv

/-- Constructor `Marker()`: `_grip(false)`, `_kalman(4, 2, 0)`, then the measurement matrix
set to the identity pattern, process noise `1e-1`, measurement noise `10`, posterior error
covariance `.5`. `_last_position` is default-constructed, `(0, 0)`. The constructor's
assignment of a zero matrix to `statePre` is overwritten by the first `predict`, which every
cycle runs before `correct`; `statePre` stays the zero vector here. -/
def new : Marker :=
  { _last_position := { x := 0, y := 0 }
    _grip := false
    _kalman :=
      { KalmanFilter.init with
        statePre := 0
        measurementMatrix := KalmanFilter.setIdentity 1
        processNoiseCov := KalmanFilter.setIdentity (1 / 10)
        measurementNoiseCov := KalmanFilter.setIdentity 10
        errorCovPost := KalmanFilter.setIdentity (1 / 2) } }

/-- Method `update()`: `_kalman.correct(cv::Mat(_last_position))`. -/
def update (m : Marker) : Marker :=
  { m with _kalman := m._kalman.correct ![m._last_position.x, m._last_position.y] }

/-- Method `nextPosition(pos)`: `_last_position = pos; update();`. -/
def nextPosition (m : Marker) (pos : Point2f) : Marker :=
  update { m with _last_position := pos }

/-- Method `nextPosition(pos, image_size)`: normalizes `pos` by the image size and
delegates to `nextPosition(pos)`. -/
def nextPositionIn (m : Marker) (pos : Point2f) (image_size : Point) : Marker :=
  nextPosition m { x := pos.x / image_size.x, y := pos.y / image_size.y }

/-- Method `getSmoothedPosition(image_size)`: runs `_kalman.predict` (which mutates the
`mutable` filter) and returns the predicted position scaled to the image size, together
with the marker afterwards. -/
def getSmoothedPosition (m : Marker) (image_size : Point) : Point2f × Marker :=
  let k := m._kalman.predict
  ({ x := k.statePre 0 * image_size.x, y := k.statePre 1 * image_size.y },
   { m with _kalman := k })

/-- Method `getLastPosition(image_size)`: the stored last position scaled to the image
size. -/
def getLastPosition (m : Marker) (image_size : Point) : Point2f :=
  { x := m._last_position.x * image_size.x, y := m._last_position.y * image_size.y }

/-- Method `grip()`. -/
def grip (m : Marker) : Marker := { m with _grip := true }

/-- Method `release()`. -/
def release (m : Marker) : Marker := { m with _grip := false }

/-- Method `hasGrip()`. -/
def hasGrip (m : Marker) : Bool := m._grip

/-- A freshly constructed marker whose filter starts from the state estimate `s` instead
of the zero vector (`Marker.new` is `startingFrom 0`). -/
def startingFrom (s : Fin 4 → ℚ) : Marker :=
  { Marker.new with _kalman := { Marker.new._kalman with statePost := s } }

/-- The marker's part of one `nextFrame` cycle that observes the normalized centroid `pos`:
the predicted position is taken once (`getSmoothedPosition`), then `nextPosition(pos)`. -/
def observeCycle (m : Marker) (pos : cv.Point2f) (image_size : cv.Point) : Marker :=
  (m.getSmoothedPosition image_size).2.nextPosition pos

/-- The marker after `n` consecutive cycles that all observe `pos`. -/
def observeCycles (m : Marker) (pos : cv.Point2f) (image_size : cv.Point) : Nat → Marker
  | 0 => m
  | n + 1 => (observeCycles m pos image_size n).observeCycle pos image_size

/-- The predicted position that the cycle following `n` observations of `pos` obtains from
`getSmoothedPosition`. -/
def predictedAfter (m : Marker) (pos : cv.Point2f) (image_size : cv.Point) (n : Nat) :
    cv.Point2f :=
  ((observeCycles m pos image_size n).getSmoothedPosition image_size).1

end Marker

/-! ## `MotionDetector` (headers/motion_detector.h) -/

/-- A frame (`Image`, a `cv::Mat`): its size and an identifier standing for its pixel
contents. The pixel operators are not modelled; only emptiness and size are read. -/
structure Image where
  cols : Int
  rows : Int
  data : Nat
deriving Repr, DecidableEq

namespace Image

/-- Default-constructed `Image`: the empty matrix. -/
def none : Image := { cols := 0, rows := 0, data := 0 }

/-- Method `cv::Mat::empty`: no elements. -/
def empty (i : Image) : Bool := decide (i.cols = 0) || decide (i.rows = 0)

/-- Method `cv::Mat::size`, converted to a `cv::Point2i` as the callers do
(`x = width = cols`, `y = height = rows`). -/
def size (i : Image) : cv.Point := { x := i.cols, y := i.rows }

end Image

/-- A contour traced by `cv::findContours`, with the values the OpenCV operators compute
from it: its points, `cv::contourArea(contour, false)`, and the `cv::boundingRect` of its
`approxPolyDP`-simplified polygon rescaled to display coordinates. -/
structure Contour where
  points : List cv.Point
  area : ℚ
  bb : cv.Rect
deriving DecidableEq

/-- Function `enclosingRect(a, b)` of the anonymous namespace. -/
def enclosingRect (a b : cv.Rect) : cv.Rect :=
  let x := min a.x b.x
  let y := min a.y b.y
  { x := x
    y := y
    width := max (a.x + a.width) (b.x + b.width) - x
    height := max (a.y + a.height) (b.y + b.height) - y }

/-- The struct `MotionDetector::Settings` (the fields the tracker reads). -/
structure Settings where
  motion_threshold : Nat := 100
  min_poly_area : Int := 300
deriving Repr, DecidableEq

/-- The class `MotionDetector`. -/
structure MotionDetector where
  width : Nat
  height : Nat
  settings : Settings
  _contours : List Contour
  _prev_enclosing_rect : cv.Rect
  _last_frames_bb_area : List Int
  _prev_frame : Image
  _curr_frame : Image
  _marker : Marker

namespace MotionDetector

/-- Constructor `MotionDetector(width, height)`. -/
def new (width height : Nat) : MotionDetector :=
  { width := width
    height := height
    settings := {}
    _contours := []
    _prev_enclosing_rect := cv.Rect.zero
    _last_frames_bb_area := []
    _prev_frame := Image.none
    _curr_frame := Image.none
    _marker := Marker.new }

/-- Method `getSignificantContours`, given the list `contours` that `cv::findContours`
traced in the greyscale image: the loop appends every contour with
`fabs(contourArea) >= settings.min_poly_area`. -/
def getSignificantContours (d : MotionDetector) (contours : List Contour) : List Contour :=
  contours.foldl
    (fun significant_contours contour =>
      if |contour.area| ≥ (d.settings.min_poly_area : ℚ) then significant_contours ++ [contour]
      else significant_contours)
    []

/-- Method `getMarkerPos`. -/
def getMarkerPos (d : MotionDetector) : cv.Point2f :=
  if !d._curr_frame.empty then
    d._marker.getLastPosition { x := (d.width : Int), y := (d.height : Int) }
  else { x := 0, y := 0 }

/-- Method `findEnclosingRect`: accumulates the bounding boxes of `_contours`. -/
def findEnclosingRect (d : MotionDetector) : cv.Rect :=
  d._contours.foldl
    (fun big_bb contour =>
      if big_bb.area = 0 then contour.bb else enclosingRect big_bb contour.bb)
    cv.Rect.zero

/-- The scan of `detectGrip` over the history: starting from `last = front`,
`ascending` is cleared by a value below its predecessor, `descending` by one above it.
The state is `(last, ascending, descending)`. -/
def scanTrend (h : List Int) : Int × Bool × Bool :=
  h.foldl
    (fun st val =>
      if val < st.1 then (val, false, st.2.2)
      else if val > st.1 then (val, st.2.1, false)
      else (val, st.2.1, st.2.2))
    (h.headD 0, true, true)

/-- The history update of `detectGrip`: `push_back(area)`, then `pop_front()` once the
size exceeds 5. -/
def pushArea (h : List Int) (area : Int) : List Int :=
  let h1 := h ++ [area]
  if h1.length > 5 then h1.tail else h1

/-- Method `detectGrip(marker_pos)`. -/
def detectGrip (d : MotionDetector) (marker_pos : cv.Point) : MotionDetector :=
  let enclosing_rect := d.findEnclosingRect
  let d1 :=
    if d._prev_enclosing_rect.contains marker_pos || enclosing_rect.contains marker_pos then
      let area := Int.tdiv enclosing_rect.area 10000
      let h := pushArea d._last_frames_bb_area area
      let t := scanTrend h
      let m :=
        if t.2.1 then d._marker.release
        else if t.2.2 then d._marker.grip
        else d._marker
      { d with _last_frames_bb_area := h, _marker := m }
    else d
  { d1 with _prev_enclosing_rect := enclosing_rect }

/-- Method `preprocessFrame`: an image of the same size and type as its argument. -/
def preprocessFrame (image : Image) : Image := image

/-- Method `tryGetCenterPoint(contours, out_point)`: `false` and an untouched `out_point`
for an empty list; otherwise the coordinate sums over all points of all contours, each
divided by the total number of points. -/
def tryGetCenterPoint (contours : List Contour) (out_point : cv.Point2f) :
    Bool × cv.Point2f :=
  if contours.isEmpty then (false, out_point)
  else
    let acc := contours.foldl
      (fun (st : cv.Point2f × Nat) poly =>
        (poly.points.foldl
            (fun (o : cv.Point2f) p => { x := o.x + (p.x : ℚ), y := o.y + (p.y : ℚ) }) st.1,
          st.2 + poly.points.length))
      (({ x := 0, y := 0 } : cv.Point2f), 0)
    (true, { x := acc.1.x / (acc.2 : ℚ), y := acc.1.y / (acc.2 : ℚ) })

/-- Method `nextFrame(frame)`, given the list `found` that `cv::findContours` traces in the
amplified motion image of this cycle (read only when both frames are non-empty). The
amplified image has the size of the current frame. -/
def nextFrame (d : MotionDetector) (frame : Image) (found : List Contour) : MotionDetector :=
  let d1 := { d with _prev_frame := d._curr_frame, _curr_frame := preprocessFrame frame }
  if !d1._curr_frame.empty && !d1._prev_frame.empty then
    let preprocessed_size : cv.Point := d1._curr_frame.size
    let d2 := { d1 with _contours := d1.getSignificantContours found }
    let sm := d2._marker.getSmoothedPosition frame.size
    let marker_pos : cv.Point := sm.1.toPoint
    let d3 := { d2 with _marker := sm.2 }
    let d4 := if !d3._contours.isEmpty then d3.detectGrip marker_pos else d3
    let c := tryGetCenterPoint d4._contours { x := 0, y := 0 }
    if c.1 then { d4 with _marker := d4._marker.nextPositionIn c.2 preprocessed_size }
    else { d4 with _marker := d4._marker.update }
  else d1

/-- Method `toImage(background)`: a `height` by `width` image composed from the
background and the debug overlays. -/
def toImage (d : MotionDetector) (background : Image) : Image :=
  { cols := (d.width : Int), rows := (d.height : Int), data := background.data }

end MotionDetector

/-! ## Trend predicates on the grip history (the words of the specification) -/

/-- The history contains a rise: some entry is immediately followed by a larger one. -/
def hasRise : List Int → Bool
  | a :: b :: t => decide (a < b) || hasRise (b :: t)
  | _ => false

/-- The history contains a fall: some entry is immediately followed by a smaller one. -/
def hasFall : List Int → Bool
  | a :: b :: t => decide (b < a) || hasFall (b :: t)
  | _ => false

/-- Strictly increasing: every entry is smaller than the next one. -/
def strictlyIncreasing (h : List Int) : Prop := List.Chain' (fun a b => a < b) h

/-- Strictly decreasing: every entry is larger than the next one. -/
def strictlyDecreasing (h : List Int) : Prop := List.Chain' (fun a b => b < a) h

/-- Non-decreasing: no entry is larger than the next one. -/
def nonDecreasing (h : List Int) : Prop := List.Chain' (fun a b => a ≤ b) h

/-- Non-increasing: no entry is smaller than the next one. -/
def nonIncreasing (h : List Int) : Prop := List.Chain' (fun a b => b ≤ a) h

/-- Decision procedure for a relation holding between all consecutive entries. -/
def decideChain (R : Int → Int → Prop) [DecidableRel R] :
    (l : List Int) → Decidable (List.Chain' R l)
  | [] => isTrue List.chain'_nil
  | [a] => isTrue (List.chain'_singleton a)
  | a :: b :: t =>
    match decideChain R (b :: t) with
    | isTrue h =>
      if hab : R a b then isTrue (List.chain'_cons.2 ⟨hab, h⟩)
      else isFalse (fun hc => hab (List.chain'_cons.1 hc).1)
    | isFalse h => isFalse (fun hc => h (List.chain'_cons.1 hc).2)

instance (h : List Int) : Decidable (strictlyIncreasing h) :=
  decideChain (fun a b => a < b) h

instance (h : List Int) : Decidable (strictlyDecreasing h) :=
  decideChain (fun a b => b < a) h

instance (h : List Int) : Decidable (nonDecreasing h) :=
  decideChain (fun a b => a ≤ b) h

instance (h : List Int) : Decidable (nonIncreasing h) :=
  decideChain (fun a b => b ≤ a) h

/-- All points of all contours of a list, in order. -/
def allPoints (contours : List Contour) : List cv.Point :=
  (contours.map fun c => c.points).flatten

/-- Sum of the x coordinates of a list of points. -/
def sumX (ps : List cv.Point) : ℚ := (ps.map fun p => (p.x : ℚ)).sum

/-- Sum of the y coordinates of a list of points. -/
def sumY (ps : List cv.Point) : ℚ := (ps.map fun p => (p.y : ℚ)).sum

/-- A traced contour whose area equals the default `min_poly_area` of 300. -/
def borderContour : Contour :=
  { points := [⟨0, 0⟩, ⟨20, 0⟩, ⟨20, 15⟩, ⟨0, 15⟩]
    area := 300
    bb := { x := 0, y := 0, width := 21, height := 16 } }

/-- A detector holding one retained contour whose bounding box is `w` by `h` at the
origin, a given grip history and a given grip flag: the state `detectGrip` is run on in the
worked examples. -/
def gripScene (history : List Int) (grip : Bool) (w h : Int) : MotionDetector :=
  { MotionDetector.new 1300 720 with
    _contours := [{ points := [], area := 50000, bb := { x := 0, y := 0, width := w, height := h } }]
    _last_frames_bb_area := history
    _marker := { Marker.new with _grip := grip } }

/-! ## `DetectorThread` (sources/main.cpp) -/

/-- The class `DetectorThread` together with the locals of `run`: the running flag, the
detector, the frame held in `background`, the input queue `_capture` and the two output
queues. -/
structure DetectorThread where
  running : Bool
  detector : MotionDetector
  background : Image
  _capture : message_queue Image
  images : message_queue Image
  marker_positions : message_queue cv.Point2f

namespace DetectorThread

/-- Constructor and the start of `run(width, height)`: a fresh detector, an empty
`background`, output queues of size limit 3. -/
def new (width height : Nat) (capture : message_queue Image) : DetectorThread :=
  { running := true
    detector := MotionDetector.new width height
    background := Image.none
    _capture := capture
    images := message_queue.new 3
    marker_positions := message_queue.new 3 }

/-- One iteration of the body of `while (running)` in `run`, given the contours `found`
that the detector traces if it processes a frame in this iteration. The horizontal flip of
a popped frame changes pixel contents only, which the embedding does not model. -/
def runStep (t : DetectorThread) (found : List Contour) : DetectorThread :=
  let r := t._capture.try_pop t.background
  let t1 :=
    if r.1 then
      { t with _capture := r.2.2, background := r.2.1,
               detector := t.detector.nextFrame r.2.1 found }
    else { t with _capture := r.2.2, background := r.2.1 }
  { t1 with images := t1.images.try_push (t1.detector.toImage t1.background)
            marker_positions := t1.marker_positions.try_push t1.detector.getMarkerPos }

end DetectorThread

/-! ## Worked scenario of the tracking thread -/

/-- A non-empty camera frame of the capture size 1300 by 720 with contents `n`. -/
def cameraFrame (n : Nat) : Image := { cols := 1300, rows := 720, data := n }

/-- A traced contour of area 400 around the frame centre; its points average to
`(650, 360)`. -/
def centreContour : Contour :=
  { points := [⟨640, 350⟩, ⟨660, 350⟩, ⟨660, 370⟩, ⟨640, 370⟩]
    area := 400
    bb := { x := 640, y := 350, width := 21, height := 21 } }

/-- The tracking thread after its first iteration, started on a capture queue holding two
frames: the first frame has been consumed and is the detector's current frame. -/
def threadAfterFirstFrame : DetectorThread :=
  (DetectorThread.new 1300 720
    { _queue := [cameraFrame 1, cameraFrame 2], _size_limit := 3 }).runStep []

/-- A traced contour of area 400 in the top-left corner; its points average to `(10, 10)`
and its bounding box is 21 by 21 at the origin. -/
def cornerContour : Contour :=
  { points := [⟨0, 0⟩, ⟨20, 0⟩, ⟨20, 20⟩, ⟨0, 20⟩]
    area := 400
    bb := { x := 0, y := 0, width := 21, height := 21 } }

/-- A fresh detector after its first frame. -/
def detectorAfterFirstFrame : MotionDetector :=
  (MotionDetector.new 1300 720).nextFrame (cameraFrame 1) []

/-- The detector after a second frame in which `cornerContour` was traced. -/
def detectorAfterMotion : MotionDetector :=
  detectorAfterFirstFrame.nextFrame (cameraFrame 2) [cornerContour]

/-! ## Rectangle enclosure (the words of the specification) -/

/-- The rectangle `r` encloses the rectangle `a`: on both axes the extent of `a` lies
within the extent of `r`. -/
def cv.Rect.encloses (r a : cv.Rect) : Prop :=
  r.x ≤ a.x ∧ r.y ≤ a.y ∧ a.x + a.width ≤ r.x + r.width ∧ a.y + a.height ≤ r.y + r.height

instance (r a : cv.Rect) : Decidable (r.encloses a) :=
  inferInstanceAs (Decidable (r.x ≤ a.x ∧ r.y ≤ a.y ∧ a.x + a.width ≤ r.x + r.width
    ∧ a.y + a.height ≤ r.y + r.height))

/-- OpenCV's `cv::boundingRect` on a point set: the zero rectangle for no points, otherwise
the upright rectangle from the smallest to the largest coordinate on each axis, both
included, so at least 1 by 1. -/
def cv.boundingRect (pts : List cv.Point) : cv.Rect :=
  match pts with
  | [] => cv.Rect.zero
  | p :: ps =>
    let xmin := ps.foldl (fun m q => min m q.x) p.x
    let ymin := ps.foldl (fun m q => min m q.y) p.y
    let xmax := ps.foldl (fun m q => max m q.x) p.x
    let ymax := ps.foldl (fun m q => max m q.y) p.y
    { x := xmin, y := ymin, width := xmax - xmin + 1, height := ymax - ymin + 1 }

/-- A detector that retained the two contours of the scenario, `cornerContour` and
`centreContour`. -/
def twoBlobScene : MotionDetector :=
  { MotionDetector.new 1300 720 with _contours := [cornerContour, centreContour] }

/-! ## `CaptureThread` (sources/main.cpp) -/

/-- The class `CaptureThread`: the running flag and the frame queue `images`. -/
structure CaptureThread where
  running : Bool
  images : message_queue Image

namespace CaptureThread

/-- Constructor: `running(true)` and a frame queue of size limit 3. -/
def new : CaptureThread :=
  { running := true, images := message_queue.new 3 }

/-- The start of `run`: `running` is cleared when `capture.isOpened()` is false. -/
def start (t : CaptureThread) (isOpened : Bool) : CaptureThread :=
  if isOpened then t else { t with running := false }

/-- One iteration of the body of `while (running)` in `run`, given the outcome of
`capture.read(frame)` on the fresh local `Image frame`: `some f` when the frame `f` was
grabbed, `none` when the read returned `false`, which leaves `frame` the empty image.
A failed read clears `running`; `images->try_push(std::move(frame))` follows in both
cases. -/
def runStep (t : CaptureThread) (read : Option Image) : CaptureThread :=
  let frame : Image := match read with
    | some f => f
    | none => Image.none
  let t1 := if read.isNone then { t with running := false } else t
  { t1 with images := t1.images.try_push frame }

end CaptureThread

/-- The capture thread and the tracking thread around the frame queue they share
(`capture.images` and `tracker._capture` are the same `shared_ptr`). A step runs one loop
iteration of one thread and hands the queue to the other. -/
structure Pipeline where
  capture : CaptureThread
  tracker : DetectorThread

namespace Pipeline

/-- Both threads as `main` constructs them, with the camera opened. -/
def new (width height : Nat) : Pipeline :=
  { capture := CaptureThread.new.start true
    tracker := DetectorThread.new width height CaptureThread.new.images }

/-- One pass of the capture thread through `while (running) { ... }`: nothing once
`running` is false. -/
def captureStep (p : Pipeline) (read : Option Image) : Pipeline :=
  if p.capture.running then
    let c := p.capture.runStep read
    { capture := c, tracker := { p.tracker with _capture := c.images } }
  else p

/-- One pass of the tracking thread through `while (running) { ... }`. -/
def trackStep (p : Pipeline) (found : List Contour) : Pipeline :=
  if p.tracker.running then
    let t := p.tracker.runStep found
    { capture := { p.capture with images := t._capture }, tracker := t }
  else p

end Pipeline

/-- The pipeline after the camera delivered one frame and the tracking thread consumed
it: the tracking thread holds that frame in `background`, the frame queue is empty. -/
def pipelineHoldingFrame : Pipeline :=
  ((Pipeline.new 1300 720).captureStep (some (cameraFrame 1))).trackStep []

/-- The pipeline after the next camera read has failed. -/
def pipelineAfterFailedRead : Pipeline :=
  pipelineHoldingFrame.captureStep none

/-! ## The fixed-step game loop of `main` (sources/main.cpp) -/

/-- The constant `UPDATE_STEP_S = 1.0 / 60.0`, over exact arithmetic. -/
def UPDATE_STEP_S : ℚ := 1 / 60

/-- Outcome of the sub-step loop `while (dt > UPDATE_STEP_S) { ... }`. -/
structure SubSteps (σ : Type) where
  /-- The accumulator `dt` after the loop. -/
  dt : ℚ
  /-- The simulation `arkanoid` after the loop. -/
  arkanoid : σ
  /-- The number of `arkanoid.update` calls made. -/
  updates : Nat
  /-- True when the loop ended because `dt > UPDATE_STEP_S` was false (false when the
  iteration budget ran out first). -/
  finished : Bool

/-- The loop `while (dt > UPDATE_STEP_S) { arkanoid.update(UPDATE_STEP_S);
dt -= UPDATE_STEP_S; }` with an iteration budget `fuel`; `update` is `Game::update`. -/
def subStepLoop {σ : Type} (update : σ → ℚ → σ) : Nat → ℚ → σ → SubSteps σ
  | 0, dt, arkanoid => { dt := dt, arkanoid := arkanoid, updates := 0, finished := false }
  | fuel + 1, dt, arkanoid =>
    if dt > UPDATE_STEP_S then
      let r := subStepLoop update fuel (dt - UPDATE_STEP_S) (update arkanoid UPDATE_STEP_S)
      { r with updates := r.updates + 1 }
    else { dt := dt, arkanoid := arkanoid, updates := 0, finished := true }

/-- The timing state of the loop in `main`: the accumulator `dt`, the simulation, and a
count of the `update` calls made so far. -/
structure GameLoop (σ : Type) where
  dt : ℚ
  arkanoid : σ
  updates : Nat

/-- The state before the first iteration: `double dt = -3.0`. -/
def GameLoop.init {σ : Type} (arkanoid : σ) : GameLoop σ :=
  { dt := -3, arkanoid := arkanoid, updates := 0 }

/-- The timing part of one iteration of `while (key != 27)`:
`dt += timer.getElapsedSeconds(); timer.reset();` followed by the sub-step loop.
`elapsed` is the value `getElapsedSeconds` returned. -/
def GameLoop.iteration {σ : Type} (update : σ → ℚ → σ) (fuel : Nat) (g : GameLoop σ)
    (elapsed : ℚ) : GameLoop σ :=
  let r := subStepLoop update fuel (g.dt + elapsed) g.arkanoid
  { dt := r.dt, arkanoid := r.arkanoid, updates := g.updates + r.updates }

/-! ## Theorems: `message_queue` -/

namespace message_queue

variable {T : Type}

theorem pushAll_limit (q : message_queue T) (xs : List T) :
    (pushAll q xs)._size_limit = q._size_limit := by
  induction xs generalizing q with
  | nil => rfl
  | cons x xs ih =>
    simp only [pushAll, List.foldl_cons] at ih ⊢
    rw [ih]
    unfold try_push
    split <;> rfl

theorem pushAll_queue (q : message_queue T) (xs : List T) :
    (pushAll q xs)._queue = q._queue ++ xs.take (q._size_limit - q._queue.length) := by
  induction xs generalizing q with
  | nil => simp [pushAll]
  | cons x xs ih =>
    simp only [pushAll, List.foldl_cons] at ih ⊢
    rw [ih]
    unfold try_push
    split
    · next h =>
      have : q._size_limit - q._queue.length = 0 := by omega
      simp [this]
    · next h =>
      have h1 : q._size_limit - q._queue.length
          = (q._size_limit - (q._queue.length + 1)) + 1 := by omega
      simp only [List.length_append, List.length_singleton]
      rw [h1, List.take_succ_cons]
      simp

theorem popAll_spec (fuel : Nat) (q : message_queue T) (out : T)
    (h : q._queue.length < fuel) :
    (popAll fuel q out).items = q._queue ∧ (popAll fuel q out).stopped = true
      ∧ (popAll fuel q out).queue._queue = [] := by
  induction fuel generalizing q out with
  | zero => omega
  | succ fuel ih =>
    obtain ⟨l, n⟩ := q
    cases l with
    | nil => simp [popAll, try_pop]
    | cons x rest =>
      have h2 : rest.length < fuel := by simpa using h
      have := ih { _queue := rest, _size_limit := n } x h2
      simp only [popAll, try_pop]
      exact ⟨by rw [this.1], this.2.1, this.2.2⟩

/-- C1. Pushing the elements of `xs` in order onto an empty queue of size limit `n` and then
popping until `try_pop` returns `false` (any iteration budget above `min |xs| n` suffices for
the loop to reach that `false`) yields exactly the first `min |xs| n` elements of `xs`, in
push order; and a push onto a full queue leaves the queue as it was. -/
theorem push_then_drain_fifo (n : Nat) (xs : List T) (out : T) (fuel : Nat)
    (hfuel : min xs.length n < fuel) :
    (popAll fuel (pushAll (new n) xs) out).items = xs.take (min xs.length n)
      ∧ (popAll fuel (pushAll (new n) xs) out).stopped = true
      ∧ (popAll fuel (pushAll (new n) xs) out).queue._queue = []
      ∧ ∀ (q : message_queue T) (x : T), q._size_limit ≤ q._queue.length → try_push q x = q := by
  have hq : (pushAll (new n : message_queue T) xs)._queue = xs.take (min xs.length n) := by
    rw [pushAll_queue]
    simp only [new, List.length_nil, Nat.sub_zero, List.nil_append]
    rcases Nat.le_total xs.length n with h | h
    · rw [Nat.min_eq_left h, List.take_of_length_le h, List.take_of_length_le (le_refl _)]
    · rw [Nat.min_eq_right h]
  have hlen : (pushAll (new n : message_queue T) xs)._queue.length < fuel := by
    rw [hq, List.length_take]
    omega
  obtain ⟨h1, h2, h3⟩ := popAll_spec fuel _ out hlen
  refine ⟨by rw [h1, hq], h2, h3, ?_⟩
  intro q x hfull
  unfold try_push
  rw [if_pos hfull]

/-- Witness for C1: five pushes onto a queue of size limit 3, then draining. -/
theorem push_then_drain_fifo_witness :
    min [10, 20, 30, 40, 50].length 3 < 4
      ∧ (popAll 4 (pushAll (new 3) [10, 20, 30, 40, 50]) 0).items = [10, 20, 30] :=
  ⟨by decide, by
    have h := (push_then_drain_fifo 3 [10, 20, 30, 40, 50] 0 4 (by decide)).1
    simpa using h⟩

/-- C5. On an empty queue `try_pop` returns `false`, leaves the queue empty (indeed
unchanged) and leaves the caller's output variable unchanged. -/
theorem try_pop_empty (q : message_queue T) (out : T) (hempty : q._queue = []) :
    (try_pop q out).1 = false ∧ (try_pop q out).2.1 = out
      ∧ (try_pop q out).2.2 = q ∧ (try_pop q out).2.2._queue = [] := by
  obtain ⟨l, n⟩ := q
  subst hempty
  simp [try_pop]

/-- Witness for C5: popping an empty queue of size limit 3 while holding 7. -/
theorem try_pop_empty_witness :
    (try_pop (new 3 : message_queue Nat) 7).1 = false
      ∧ (try_pop (new 3 : message_queue Nat) 7).2.1 = 7 :=
  ⟨(try_pop_empty (new 3) 7 rfl).1, (try_pop_empty (new 3) 7 rfl).2.1⟩

end message_queue

/-! ## Theorems: the gesture heuristic `detectGrip` -/

namespace MotionDetector

/-- The step function of the scan in `detectGrip`. -/
theorem scan_foldl (l : List Int) (p : Int) (a b : Bool) :
    ((l.foldl
        (fun (st : Int × Bool × Bool) val =>
          if val < st.1 then (val, false, st.2.2)
          else if val > st.1 then (val, st.2.1, false)
          else (val, st.2.1, st.2.2))
        (p, a, b)).2.1 = true ↔ a = true ∧ List.Chain (fun x y => x ≤ y) p l)
    ∧ ((l.foldl
        (fun (st : Int × Bool × Bool) val =>
          if val < st.1 then (val, false, st.2.2)
          else if val > st.1 then (val, st.2.1, false)
          else (val, st.2.1, st.2.2))
        (p, a, b)).2.2 = true ↔ b = true ∧ List.Chain (fun x y => y ≤ x) p l) := by
  induction l generalizing p a b with
  | nil => simp
  | cons v t ih =>
    simp only [List.foldl_cons, List.chain_cons]
    by_cases h1 : v < p
    · rw [if_pos h1]
      have := ih v false b
      constructor
      · rw [this.1]
        constructor
        · intro h; exact absurd h.1 (by simp)
        · intro h; exact absurd h.2.1 (by omega)
      · rw [this.2]
        constructor
        · intro h; exact ⟨h.1, by omega, h.2⟩
        · intro h; exact ⟨h.1, h.2.2⟩
    · rw [if_neg h1]
      by_cases h2 : v > p
      · rw [if_pos h2]
        have := ih v a false
        constructor
        · rw [this.1]
          constructor
          · intro h; exact ⟨h.1, by omega, h.2⟩
          · intro h; exact ⟨h.1, h.2.2⟩
        · rw [this.2]
          constructor
          · intro h; exact absurd h.1 (by simp)
          · intro h; exact absurd h.2.1 (by omega)
      · rw [if_neg h2]
        have := ih v a b
        constructor
        · rw [this.1]
          constructor
          · intro h; exact ⟨h.1, by omega, h.2⟩
          · intro h; exact ⟨h.1, h.2.2⟩
        · rw [this.2]
          constructor
          · intro h; exact ⟨h.1, by omega, h.2⟩
          · intro h; exact ⟨h.1, h.2.2⟩

theorem scanTrend_ascending (h : List Int) :
    (scanTrend h).2.1 = true ↔ nonDecreasing h := by
  cases h with
  | nil => simp [scanTrend, nonDecreasing]
  | cons x t =>
    have := (scan_foldl (x :: t) x true true).1
    simp only [scanTrend, List.headD_cons, nonDecreasing]
    rw [this]
    simp [List.chain_cons, List.Chain']

theorem scanTrend_descending (h : List Int) :
    (scanTrend h).2.2 = true ↔ nonIncreasing h := by
  cases h with
  | nil => simp [scanTrend, nonIncreasing]
  | cons x t =>
    have := (scan_foldl (x :: t) x true true).2
    simp only [scanTrend, List.headD_cons, nonIncreasing]
    rw [this]
    simp [List.chain_cons, List.Chain']

end MotionDetector

namespace MotionDetector

theorem detectGrip_inside (d : MotionDetector) (marker_pos : cv.Point)
    (hin : (d._prev_enclosing_rect.contains marker_pos
              || d.findEnclosingRect.contains marker_pos) = true) :
    (d.detectGrip marker_pos)._last_frames_bb_area
        = pushArea d._last_frames_bb_area (Int.tdiv d.findEnclosingRect.area 10000)
      ∧ (d.detectGrip marker_pos)._marker.hasGrip
        = if nonDecreasing (pushArea d._last_frames_bb_area
              (Int.tdiv d.findEnclosingRect.area 10000)) then false
          else if nonIncreasing (pushArea d._last_frames_bb_area
              (Int.tdiv d.findEnclosingRect.area 10000)) then true
          else d._marker.hasGrip := by
  have hA := scanTrend_ascending
    (pushArea d._last_frames_bb_area (Int.tdiv d.findEnclosingRect.area 10000))
  have hD := scanTrend_descending
    (pushArea d._last_frames_bb_area (Int.tdiv d.findEnclosingRect.area 10000))
  simp only [detectGrip, hin, if_true]
  refine ⟨trivial, ?_⟩
  by_cases h1 : nonDecreasing
      (pushArea d._last_frames_bb_area (Int.tdiv d.findEnclosingRect.area 10000))
  · rw [if_pos h1, if_pos (hA.2 h1)]
    rfl
  · have h1f : ¬ (scanTrend (pushArea d._last_frames_bb_area
        (Int.tdiv d.findEnclosingRect.area 10000))).2.1 = true := fun h => h1 (hA.1 h)
    rw [if_neg h1, if_neg h1f]
    by_cases h2 : nonIncreasing
        (pushArea d._last_frames_bb_area (Int.tdiv d.findEnclosingRect.area 10000))
    · rw [if_pos h2, if_pos (hD.2 h2)]
      rfl
    · have h2f : ¬ (scanTrend (pushArea d._last_frames_bb_area
          (Int.tdiv d.findEnclosingRect.area 10000))).2.2 = true := fun h => h2 (hD.1 h)
      rw [if_neg h2, if_neg h2f]

theorem hasFall_not_nonDecreasing (h : List Int) (hf : hasFall h = true) :
    ¬ nonDecreasing h := by
  induction h with
  | nil => simp [hasFall] at hf
  | cons a t ih =>
    cases t with
    | nil => simp [hasFall] at hf
    | cons b t =>
      simp only [hasFall, Bool.or_eq_true, decide_eq_true_eq] at hf
      simp only [nonDecreasing, List.chain'_cons]
      intro hc
      rcases hf with hf | hf
      · omega
      · exact ih hf hc.2

theorem hasRise_not_nonIncreasing (h : List Int) (hr : hasRise h = true) :
    ¬ nonIncreasing h := by
  induction h with
  | nil => simp [hasRise] at hr
  | cons a t ih =>
    cases t with
    | nil => simp [hasRise] at hr
    | cons b t =>
      simp only [hasRise, Bool.or_eq_true, decide_eq_true_eq] at hr
      simp only [nonIncreasing, List.chain'_cons]
      intro hc
      rcases hr with hr | hr
      · omega
      · exact ih hr hc.2

/-- C2. In a cycle whose marker position lies inside the previous or the current
enclosing rectangle, with `h` the grip history after the append: a strictly increasing `h`
of length 5 ends the cycle released, a strictly decreasing `h` of length 5 ends it gripped,
and an `h` with both a rise and a fall leaves `hasGrip` as it was before the cycle. -/
theorem detectGrip_classifies (d : MotionDetector) (marker_pos : cv.Point)
    (hin : (d._prev_enclosing_rect.contains marker_pos
              || d.findEnclosingRect.contains marker_pos) = true) :
    (d.detectGrip marker_pos)._last_frames_bb_area
        = pushArea d._last_frames_bb_area (Int.tdiv d.findEnclosingRect.area 10000)
      ∧ ((d.detectGrip marker_pos)._last_frames_bb_area.length = 5 →
          strictlyIncreasing (d.detectGrip marker_pos)._last_frames_bb_area →
          (d.detectGrip marker_pos)._marker.hasGrip = false)
      ∧ ((d.detectGrip marker_pos)._last_frames_bb_area.length = 5 →
          strictlyDecreasing (d.detectGrip marker_pos)._last_frames_bb_area →
          (d.detectGrip marker_pos)._marker.hasGrip = true)
      ∧ (hasRise (d.detectGrip marker_pos)._last_frames_bb_area = true →
          hasFall (d.detectGrip marker_pos)._last_frames_bb_area = true →
          (d.detectGrip marker_pos)._marker.hasGrip = d._marker.hasGrip) := by
  obtain ⟨hh, hg⟩ := detectGrip_inside d marker_pos hin
  rw [hh, hg]
  refine ⟨rfl, ?_, ?_, ?_⟩
  · intro _ hinc
    have : nonDecreasing (pushArea d._last_frames_bb_area
        (Int.tdiv d.findEnclosingRect.area 10000)) :=
      List.Chain'.imp (fun a b hab => le_of_lt hab) hinc
    rw [if_pos this]
  · intro hlen hdec
    have hni : nonIncreasing (pushArea d._last_frames_bb_area
        (Int.tdiv d.findEnclosingRect.area 10000)) :=
      List.Chain'.imp (fun a b hab => le_of_lt hab) hdec
    have hnd : ¬ nonDecreasing (pushArea d._last_frames_bb_area
        (Int.tdiv d.findEnclosingRect.area 10000)) := by
      generalize pushArea d._last_frames_bb_area
        (Int.tdiv d.findEnclosingRect.area 10000) = h at hlen hdec
      match h, hlen, hdec with
      | a :: b :: t, _, hdec =>
        simp only [strictlyDecreasing, List.chain'_cons] at hdec
        simp only [nonDecreasing, List.chain'_cons]
        intro hc
        omega
    rw [if_neg hnd, if_pos hni]
  · intro hr hf
    rw [if_neg (hasFall_not_nonDecreasing _ hf), if_neg (hasRise_not_nonIncreasing _ hr)]

end MotionDetector

namespace MotionDetector

/-- Witness for C2: histories `[1,2,3,4]`, `[9,8,7,6]`, `[1,5,2,6]` receiving the bucket 5
of a 250 by 200 rectangle that contains the marker position `(10, 10)`. -/
theorem detectGrip_classifies_witness :
    ((gripScene [1, 2, 3, 4] true 250 200).detectGrip ⟨10, 10⟩)._marker.hasGrip = false
      ∧ ((gripScene [9, 8, 7, 6] false 250 200).detectGrip ⟨10, 10⟩)._marker.hasGrip = true
      ∧ ((gripScene [1, 5, 2, 6] true 250 200).detectGrip ⟨10, 10⟩)._marker.hasGrip = true :=
  ⟨(detectGrip_classifies (gripScene [1, 2, 3, 4] true 250 200) ⟨10, 10⟩ (by decide)).2.1
      (by decide) (by decide),
   (detectGrip_classifies (gripScene [9, 8, 7, 6] false 250 200) ⟨10, 10⟩ (by decide)).2.2.1
      (by decide) (by decide),
   (detectGrip_classifies (gripScene [1, 5, 2, 6] true 250 200) ⟨10, 10⟩ (by decide)).2.2.2
      (by decide) (by decide)⟩

/-- C8. In a cycle whose marker position lies inside the previous or the current
enclosing rectangle, with `h` the grip history after the append: a non-decreasing `h`, in
particular a constant one or one of a single entry, ends the cycle released whatever the
flag was before; the flag after the cycle is `false` for a non-decreasing `h`, `true` for a
non-increasing `h` that is not non-decreasing, and unchanged otherwise, so a marker that was
released becomes gripped only when `h` is non-increasing and not non-decreasing. -/
theorem detectGrip_ties_release (d : MotionDetector) (marker_pos : cv.Point)
    (hin : (d._prev_enclosing_rect.contains marker_pos
              || d.findEnclosingRect.contains marker_pos) = true) :
    (nonDecreasing (d.detectGrip marker_pos)._last_frames_bb_area →
        (d.detectGrip marker_pos)._marker.hasGrip = false)
      ∧ ((∀ a ∈ (d.detectGrip marker_pos)._last_frames_bb_area,
            ∀ b ∈ (d.detectGrip marker_pos)._last_frames_bb_area, a = b) →
          (d.detectGrip marker_pos)._marker.hasGrip = false)
      ∧ ((d.detectGrip marker_pos)._last_frames_bb_area.length = 1 →
          (d.detectGrip marker_pos)._marker.hasGrip = false)
      ∧ (d.detectGrip marker_pos)._marker.hasGrip
          = (if nonDecreasing (d.detectGrip marker_pos)._last_frames_bb_area then false
             else if nonIncreasing (d.detectGrip marker_pos)._last_frames_bb_area then true
             else d._marker.hasGrip)
      ∧ ((d.detectGrip marker_pos)._marker.hasGrip = true → d._marker.hasGrip = false →
          nonIncreasing (d.detectGrip marker_pos)._last_frames_bb_area
            ∧ ¬ nonDecreasing (d.detectGrip marker_pos)._last_frames_bb_area) := by
  obtain ⟨hh, hg⟩ := detectGrip_inside d marker_pos hin
  rw [hh, hg]
  generalize pushArea d._last_frames_bb_area (Int.tdiv d.findEnclosingRect.area 10000) = h
  have hnd : nonDecreasing h → (if nonDecreasing h then false
      else if nonIncreasing h then true else d._marker.hasGrip) = false := by
    intro hn
    rw [if_pos hn]
  refine ⟨hnd, ?_, ?_, rfl, ?_⟩
  · intro hconst
    apply hnd
    exact (List.pairwise_of_forall_mem_list
      (fun a ha b hb => le_of_eq (hconst a ha b hb))).chain'
  · intro hlen
    apply hnd
    match h, hlen with
    | [a], _ => simp [nonDecreasing]
  · intro hg1 hbefore
    by_cases h1 : nonDecreasing h
    · rw [if_pos h1] at hg1
      exact absurd hg1 (by simp)
    · rw [if_neg h1] at hg1
      by_cases h2 : nonIncreasing h
      · exact ⟨h2, h1⟩
      · rw [if_neg h2, hbefore] at hg1
        exact absurd hg1 (by simp)

/-- Witness for C8: the constant history `[3,3,3,3]` receiving the bucket 3 of a 200 by 150
rectangle releases a gripped marker, a first entry releases it too, and a released marker
is gripped by the falling history `[9,8,7,6,5]`. -/
theorem detectGrip_ties_release_witness :
    ((gripScene [3, 3, 3, 3] true 200 150).detectGrip ⟨10, 10⟩)._marker.hasGrip = false
      ∧ ((gripScene [] true 200 150).detectGrip ⟨10, 10⟩)._marker.hasGrip = false
      ∧ nonIncreasing
          ((gripScene [9, 8, 7, 6] false 250 200).detectGrip ⟨10, 10⟩)._last_frames_bb_area :=
  ⟨(detectGrip_ties_release (gripScene [3, 3, 3, 3] true 200 150) ⟨10, 10⟩ (by decide)).2.1
      (by decide),
   (detectGrip_ties_release (gripScene [] true 200 150) ⟨10, 10⟩ (by decide)).2.2.1
      (by decide),
   ((detectGrip_ties_release (gripScene [9, 8, 7, 6] false 250 200) ⟨10, 10⟩
      (by decide)).2.2.2.2 (by decide) (by decide)).1⟩

end MotionDetector

/-! ## Theorems: centroid and contour filter -/

namespace MotionDetector

theorem points_foldl (ps : List cv.Point) (o : cv.Point2f) :
    ps.foldl (fun (o : cv.Point2f) p => { x := o.x + (p.x : ℚ), y := o.y + (p.y : ℚ) }) o
      = { x := o.x + sumX ps, y := o.y + sumY ps } := by
  induction ps generalizing o with
  | nil => simp [sumX, sumY]
  | cons p ps ih =>
    rw [List.foldl_cons, ih]
    simp [sumX, sumY, add_assoc]

theorem contours_foldl (cs : List Contour) (o : cv.Point2f) (n : Nat) :
    cs.foldl
      (fun (st : cv.Point2f × Nat) poly =>
        (poly.points.foldl
            (fun (o : cv.Point2f) p => { x := o.x + (p.x : ℚ), y := o.y + (p.y : ℚ) }) st.1,
          st.2 + poly.points.length))
      (o, n)
      = ({ x := o.x + sumX (allPoints cs), y := o.y + sumY (allPoints cs) },
          n + (allPoints cs).length) := by
  induction cs generalizing o n with
  | nil => simp [allPoints, sumX, sumY]
  | cons c cs ih =>
    rw [List.foldl_cons, points_foldl, ih]
    simp [allPoints, sumX, sumY, add_assoc]

/-- C3. Over exact arithmetic: for a non-empty list of contours holding `N >= 1` points in
total, `tryGetCenterPoint` succeeds and returns (sum of all x / N, sum of all y / N), the
sums taken over all points of all contours; for the empty list it returns `false` and the
output point is the one passed in. -/
theorem tryGetCenterPoint_mean (contours : List Contour) (out_point : cv.Point2f) :
    (contours ≠ [] → 1 ≤ (allPoints contours).length →
        tryGetCenterPoint contours out_point
          = (true, { x := sumX (allPoints contours) / ((allPoints contours).length : ℚ)
                     y := sumY (allPoints contours) / ((allPoints contours).length : ℚ) }))
      ∧ (contours = [] → tryGetCenterPoint contours out_point = (false, out_point)) := by
  constructor
  · intro hne _
    have he : contours.isEmpty = false := by
      cases contours with
      | nil => exact absurd rfl hne
      | cons c cs => rfl
    simp only [tryGetCenterPoint, he, contours_foldl]
    simp
  · intro he
    subst he
    rfl

/-- Witness for C3: a one-point contour and a two-point contour; the centroid is the mean
of the three points, `(2, 1)`, and not the mean `(3/2, 3/4)` of the two per-contour means. -/
theorem tryGetCenterPoint_mean_witness :
    tryGetCenterPoint
        [{ points := [⟨0, 0⟩], area := 400, bb := cv.Rect.zero },
         { points := [⟨2, 1⟩, ⟨4, 2⟩], area := 400, bb := cv.Rect.zero }] ⟨7, 7⟩
      = (true, { x := 2, y := 1 }) := by
  have h := (tryGetCenterPoint_mean
    [{ points := [⟨0, 0⟩], area := 400, bb := cv.Rect.zero },
     { points := [⟨2, 1⟩, ⟨4, 2⟩], area := 400, bb := cv.Rect.zero }] ⟨7, 7⟩).1
    (by simp) (by simp [allPoints])
  rw [h]
  norm_num [allPoints, sumX, sumY]

theorem significant_foldl (d : MotionDetector) (cs acc : List Contour) :
    cs.foldl
      (fun significant_contours contour =>
        if |contour.area| ≥ (d.settings.min_poly_area : ℚ) then significant_contours ++ [contour]
        else significant_contours)
      acc
      = acc ++ cs.filter (fun c => decide ((d.settings.min_poly_area : ℚ) ≤ |c.area|)) := by
  induction cs generalizing acc with
  | nil => simp
  | cons c cs ih =>
    rw [List.foldl_cons, ih]
    by_cases h : (d.settings.min_poly_area : ℚ) ≤ |c.area|
    · simp [h, List.filter_cons]
    · simp [h, List.filter_cons]

/-- C6, as the code has it: the result of `getSignificantContours` is the sublist, in the
original order, of exactly the contours whose absolute area is at least `min_poly_area`. -/
theorem getSignificantContours_filter (d : MotionDetector) (contours : List Contour) :
    d.getSignificantContours contours
      = contours.filter (fun c => decide ((d.settings.min_poly_area : ℚ) ≤ |c.area|)) := by
  rw [getSignificantContours, significant_foldl]
  simp

/-- C6 fails as stated: a contour whose area equals `min_poly_area` (300) does not exceed
it, and is retained. -/
theorem getSignificantContours_keeps_border :
    borderContour ∈ (MotionDetector.new 1300 720).getSignificantContours [borderContour]
      ∧ ¬ (((MotionDetector.new 1300 720).settings.min_poly_area : ℚ) < |borderContour.area|) := by
  constructor
  · rw [getSignificantContours, significant_foldl]
    simp [MotionDetector.new, borderContour]
  · simp [MotionDetector.new, borderContour]

end MotionDetector

/-! ## Theorems: the marker's stored position -/

namespace MotionDetector

theorem detectGrip_frame (d : MotionDetector) (p : cv.Point) :
    (d.detectGrip p)._contours = d._contours
      ∧ (d.detectGrip p)._curr_frame = d._curr_frame
      ∧ (d.detectGrip p).width = d.width ∧ (d.detectGrip p).height = d.height
      ∧ (d.detectGrip p)._marker._last_position = d._marker._last_position
      ∧ (d.detectGrip p)._marker._kalman = d._marker._kalman := by
  unfold detectGrip
  simp only []
  split
  · refine ⟨rfl, rfl, rfl, rfl, ?_, ?_⟩ <;> (simp only []; split <;> [rfl; (split <;> rfl)])
  · exact ⟨rfl, rfl, rfl, rfl, rfl, rfl⟩

/-- The marker's stored position after `nextFrame`: the normalized centroid when a frame
pair was processed and a contour survived the filter, the old position otherwise. -/
theorem nextFrame_last_position (d : MotionDetector) (frame : Image) (found : List Contour) :
    (d.nextFrame frame found)._marker._last_position
      = if frame.empty = false ∧ d._curr_frame.empty = false
            ∧ d.getSignificantContours found ≠ [] then
          { x := (tryGetCenterPoint (d.getSignificantContours found) ⟨0, 0⟩).2.x / frame.cols
            y := (tryGetCenterPoint (d.getSignificantContours found) ⟨0, 0⟩).2.y / frame.rows }
        else d._marker._last_position := by
  unfold nextFrame
  simp only [preprocessFrame]
  by_cases hf : frame.empty = false
  · by_cases hc : d._curr_frame.empty = false
    · simp only [hf, hc, Bool.not_false, Bool.and_self, if_true, true_and]
      have hsig : ({ d with _prev_frame := d._curr_frame, _curr_frame := frame }
          : MotionDetector).getSignificantContours found = d.getSignificantContours found := rfl
      rw [hsig]
      cases hs : d.getSignificantContours found with
      | nil =>
        simp [tryGetCenterPoint, Marker.update, Marker.getSmoothedPosition]
      | cons c cs =>
        simp only [List.isEmpty_cons, Bool.not_false, if_true, ne_eq, reduceCtorEq,
          not_false_eq_true]
        have hg := detectGrip_frame
          { d with _prev_frame := d._curr_frame, _curr_frame := frame, _contours := c :: cs,
                   _marker := (d._marker.getSmoothedPosition frame.size).2 }
          (d._marker.getSmoothedPosition frame.size).1.toPoint
        rw [hg.1]
        simp [tryGetCenterPoint, Marker.nextPositionIn, Marker.nextPosition, Marker.update,
          Image.size]
    · simp only [Bool.not_eq_false] at hc
      simp [hc, hf]
  · simp only [Bool.not_eq_false] at hf
    simp [hf]

/-- In a cycle that processes a frame pair and retains no contour, the marker goes through
the prediction and then through `update()`; nothing else touches it. -/
theorem nextFrame_tick (d : MotionDetector) (frame : Image) (found : List Contour)
    (hf : frame.empty = false) (hc : d._curr_frame.empty = false)
    (hs : d.getSignificantContours found = []) :
    (d.nextFrame frame found)._marker = (d._marker.getSmoothedPosition frame.size).2.update := by
  have hsig : ({ d with _prev_frame := d._curr_frame, _curr_frame := frame }
      : MotionDetector).getSignificantContours found = d.getSignificantContours found := rfl
  unfold nextFrame
  simp only [preprocessFrame, hf, hc, Bool.not_false, Bool.and_self, if_true]
  rw [hsig, hs]
  simp [tryGetCenterPoint]

end MotionDetector

namespace Marker

/-- C9. The no-observation tick `update()` is `nextPosition(p)` at the stored last
position `p`: the filter is corrected with that position as the measurement, and the stored
position and the grip flag stay as they were. The stored position is left alone by
`getSmoothedPosition`, `grip` and `release`, is set by `nextPosition`, and a `nextFrame`
cycle without a surviving contour (or without a frame pair) leaves it unchanged. In a
`nextFrame` cycle that has a frame pair and no surviving contour the tick is what runs:
the marker after the cycle is the predicted marker after `update()`, equally after
`nextPosition` at the stored position, its filter corrected against that position. -/
theorem update_eq_nextPosition (m : Marker) :
    m.update = m.nextPosition m._last_position
      ∧ m.update._kalman = m._kalman.correct ![m._last_position.x, m._last_position.y]
      ∧ m.update._last_position = m._last_position
      ∧ m.update._grip = m._grip
      ∧ (∀ size, (m.getSmoothedPosition size).2._last_position = m._last_position)
      ∧ m.grip._last_position = m._last_position
      ∧ m.release._last_position = m._last_position
      ∧ (∀ p, (m.nextPosition p)._last_position = p)
      ∧ (∀ (d : MotionDetector) (frame : Image) (found : List Contour), d._marker = m →
          (frame.empty = true ∨ d._curr_frame.empty = true
            ∨ d.getSignificantContours found = []) →
          (d.nextFrame frame found)._marker._last_position = m._last_position)
      ∧ (∀ (d : MotionDetector) (frame : Image) (found : List Contour), d._marker = m →
          frame.empty = false → d._curr_frame.empty = false →
          d.getSignificantContours found = [] →
          (d.nextFrame frame found)._marker = (m.getSmoothedPosition frame.size).2.update
            ∧ (d.nextFrame frame found)._marker
                = (m.getSmoothedPosition frame.size).2.nextPosition m._last_position
            ∧ (d.nextFrame frame found)._marker._kalman
                = m._kalman.predict.correct ![m._last_position.x, m._last_position.y]) := by
  refine ⟨rfl, rfl, rfl, rfl, fun _ => rfl, rfl, rfl, fun _ => rfl, ?_, ?_⟩
  · intro d frame found hm hno
    rw [MotionDetector.nextFrame_last_position, ← hm]
    apply if_neg
    rintro ⟨h1, h2, h3⟩
    rcases hno with h | h | h
    · rw [h1] at h; exact absurd h (by simp)
    · rw [h2] at h; exact absurd h (by simp)
    · exact h3 h
  · intro d frame found hm hf hc hs
    have ht := MotionDetector.nextFrame_tick d frame found hf hc hs
    rw [hm] at ht
    exact ⟨ht, ht, by rw [ht]; rfl⟩

end Marker

/-! ## Theorems: the published control position -/

namespace MotionDetector

theorem nextFrame_frame (d : MotionDetector) (frame : Image) (found : List Contour) :
    (d.nextFrame frame found)._curr_frame = frame
      ∧ (d.nextFrame frame found).width = d.width
      ∧ (d.nextFrame frame found).height = d.height := by
  unfold nextFrame
  simp only [preprocessFrame]
  split_ifs
  all_goals first
    | exact ⟨rfl, rfl, rfl⟩
    | exact ⟨(detectGrip_frame _ _).2.1, (detectGrip_frame _ _).2.2.1,
        (detectGrip_frame _ _).2.2.2.1⟩

end MotionDetector

namespace DetectorThread

theorem runStep_popped (t : DetectorThread) (found : List Contour) (frame : Image)
    (rest : List Image) (hq : t._capture._queue = frame :: rest) :
    (t.runStep found).detector = t.detector.nextFrame frame found
      ∧ (t.runStep found).marker_positions
          = t.marker_positions.try_push (t.detector.nextFrame frame found).getMarkerPos := by
  simp [runStep, message_queue.try_pop, hq]

theorem runStep_idle (t : DetectorThread) (found : List Contour)
    (hq : t._capture._queue = []) :
    (t.runStep found).detector = t.detector
      ∧ (t.runStep found).marker_positions
          = t.marker_positions.try_push t.detector.getMarkerPos := by
  simp [runStep, message_queue.try_pop, hq]

/-- C4, as the code has it: the position pushed in a tracking cycle is the stored last
observed position scaled to the display size (`getLastPosition`), or `(0, 0)` while the
detector holds no frame. After a cycle that processed a frame pair with a surviving contour
the stored position is that cycle's centroid divided by the frame size, whatever the state
of the Kalman filter; a cycle that finds the frame queue empty pushes the same position as
the detector held before. -/
theorem runStep_pushes_last_position (t : DetectorThread) (found : List Contour) :
    (t.runStep found).marker_positions
        = t.marker_positions.try_push
            (if (t.runStep found).detector._curr_frame.empty = true then ⟨0, 0⟩
             else (t.runStep found).detector._marker.getLastPosition
                    ⟨(t.detector.width : Int), (t.detector.height : Int)⟩)
      ∧ (∀ frame rest, t._capture._queue = frame :: rest → frame.empty = false →
          t.detector._curr_frame.empty = false →
          t.detector.getSignificantContours found ≠ [] →
          (t.runStep found).detector._marker._last_position
            = { x := (MotionDetector.tryGetCenterPoint
                        (t.detector.getSignificantContours found) ⟨0, 0⟩).2.x / frame.cols
                y := (MotionDetector.tryGetCenterPoint
                        (t.detector.getSignificantContours found) ⟨0, 0⟩).2.y / frame.rows })
      ∧ (t._capture._queue = [] →
          (t.runStep found).marker_positions
            = t.marker_positions.try_push t.detector.getMarkerPos) := by
  refine ⟨?_, ?_, fun hq => (runStep_idle t found hq).2⟩
  · cases hq : t._capture._queue with
    | nil =>
      obtain ⟨h1, h2⟩ := runStep_idle t found hq
      rw [h2, h1]
      unfold MotionDetector.getMarkerPos
      cases t.detector._curr_frame.empty <;> rfl
    | cons frame rest =>
      obtain ⟨h1, h2⟩ := runStep_popped t found frame rest hq
      obtain ⟨_, hw, hh⟩ := MotionDetector.nextFrame_frame t.detector frame found
      rw [h2, h1]
      unfold MotionDetector.getMarkerPos
      rw [hw, hh]
      cases (t.detector.nextFrame frame found)._curr_frame.empty <;> rfl
  · intro frame rest hq hf hc hs
    rw [(runStep_popped t found frame rest hq).1, MotionDetector.nextFrame_last_position,
      if_pos ⟨hf, hc, hs⟩]

end DetectorThread

/-! ## Theorems: the Kalman filter of the marker -/

namespace cv.KalmanFilter

theorem setIdentity44 (s : ℚ) :
    (setIdentity s : Matrix (Fin 4) (Fin 4) ℚ) = covDiag s s := by
  rw [← Matrix.ext_iff]
  simp [Fin.forall_fin_succ, setIdentity, covDiag]

theorem setIdentity24 (s : ℚ) :
    (setIdentity s : Matrix (Fin 2) (Fin 4) ℚ) = !![s, 0, 0, 0; 0, s, 0, 0] := by
  rw [← Matrix.ext_iff]
  simp [Fin.forall_fin_succ, setIdentity]

theorem setIdentity22 (s : ℚ) :
    (setIdentity s : Matrix (Fin 2) (Fin 2) ℚ) = !![s, 0; 0, s] := by
  rw [← Matrix.ext_iff]
  simp [Fin.forall_fin_succ, setIdentity]

theorem measure_mul_cov (a b : ℚ) :
    (!![1, 0, 0, 0; 0, 1, 0, 0] : Matrix (Fin 2) (Fin 4) ℚ) * covDiag a b
      = !![a, 0, 0, 0; 0, a, 0, 0] := by
  rw [← Matrix.ext_iff]
  simp [Fin.forall_fin_succ, covDiag, Matrix.mul_apply, Fin.sum_univ_succ]

theorem innovation_cov (a : ℚ) :
    (!![a, 0, 0, 0; 0, a, 0, 0] : Matrix (Fin 2) (Fin 4) ℚ)
        * (!![1, 0, 0, 0; 0, 1, 0, 0] : Matrix (Fin 2) (Fin 4) ℚ).transpose
        + !![10, 0; 0, 10]
      = !![a + 10, 0; 0, a + 10] := by
  rw [← Matrix.ext_iff]
  simp [Fin.forall_fin_succ, Matrix.mul_apply, Fin.sum_univ_succ, Matrix.transpose,
    Matrix.vecHead, Matrix.vecTail]

theorem inv2_scalar (c : ℚ) (hc : c ≠ 0) : inv2 !![c, 0; 0, c] = !![c⁻¹, 0; 0, c⁻¹] := by
  rw [← Matrix.ext_iff]
  simp [Fin.forall_fin_succ, inv2]
  field_simp

theorem gain_value (a c : ℚ) :
    ((!![c, 0; 0, c] : Matrix (Fin 2) (Fin 2) ℚ)
        * (!![a, 0, 0, 0; 0, a, 0, 0] : Matrix (Fin 2) (Fin 4) ℚ)).transpose
      = !![c * a, 0; 0, c * a; 0, 0; 0, 0] := by
  rw [← Matrix.ext_iff]
  simp [Fin.forall_fin_succ, Matrix.mul_apply, Fin.sum_univ_succ]

theorem cov_minus_gain (g a b : ℚ) :
    covDiag a b - (!![g, 0; 0, g; 0, 0; 0, 0] : Matrix (Fin 4) (Fin 2) ℚ)
        * (!![a, 0, 0, 0; 0, a, 0, 0] : Matrix (Fin 2) (Fin 4) ℚ)
      = covDiag (a - g * a) b := by
  rw [← Matrix.ext_iff]
  simp [Fin.forall_fin_succ, covDiag, Matrix.mul_apply, Fin.sum_univ_succ]

theorem gain_mulVec (g : ℚ) (v : Fin 2 → ℚ) :
    (!![g, 0; 0, g; 0, 0; 0, 0] : Matrix (Fin 4) (Fin 2) ℚ).mulVec v
      = ![g * v 0, g * v 1, 0, 0] := by
  funext i
  revert i
  simp [Fin.forall_fin_succ, Matrix.mulVec, Matrix.dotProduct, Fin.sum_univ_succ]

theorem measure_mulVec (s : Fin 4 → ℚ) :
    (!![1, 0, 0, 0; 0, 1, 0, 0] : Matrix (Fin 2) (Fin 4) ℚ).mulVec s = ![s 0, s 1] := by
  funext i
  revert i
  simp [Fin.forall_fin_succ, Matrix.mulVec, Matrix.dotProduct, Fin.sum_univ_succ]

/-- Prediction with the configured matrices: the state estimate is kept and `0.1` is added
to every variance. -/
theorem predict_covDiag (k : KalmanFilter) (a b : ℚ) (hk : Configured k)
    (hP : k.errorCovPost = covDiag a b) :
    Configured k.predict ∧ k.predict.statePre = k.statePost
      ∧ k.predict.errorCovPre = covDiag (a + 1 / 10) (b + 1 / 10) := by
  obtain ⟨hA, hH, hQ, hR⟩ := hk
  refine ⟨⟨hA, hH, hQ, hR⟩, ?_, ?_⟩
  · simp [predict, hA]
  · simp only [predict, hA, hP, hQ, setIdentity44, Matrix.one_mul, Matrix.transpose_one,
      Matrix.mul_one]
    rw [← Matrix.ext_iff]
    simp [Fin.forall_fin_succ, covDiag]

/-- Correction with the configured matrices and a diagonal prior covariance: both position
components move towards the measurement by the gain `a / (a + 10)`. -/
theorem correct_covDiag (k : KalmanFilter) (a b : ℚ) (z : Fin 2 → ℚ) (hk : Configured k)
    (hP : k.errorCovPre = covDiag a b) (ha : a + 10 ≠ 0) :
    Configured (k.correct z)
      ∧ (k.correct z).statePost
          = k.statePre + ![a / (a + 10) * (z 0 - k.statePre 0),
                           a / (a + 10) * (z 1 - k.statePre 1), 0, 0]
      ∧ (k.correct z).errorCovPost = covDiag (10 * a / (a + 10)) b := by
  obtain ⟨hA, hH, hQ, hR⟩ := hk
  have h2 : k.measurementMatrix * k.errorCovPre = !![a, 0, 0, 0; 0, a, 0, 0] := by
    rw [hH, hP, setIdentity24, measure_mul_cov]
  have h3 : k.measurementMatrix * k.errorCovPre * k.measurementMatrix.transpose
      + k.measurementNoiseCov = !![a + 10, 0; 0, a + 10] := by
    rw [h2, hH, hR, setIdentity24, setIdentity22, innovation_cov]
  refine ⟨⟨hA, hH, hQ, hR⟩, ?_, ?_⟩
  · simp only [correct]
    rw [h3, h2, inv2_scalar _ ha, gain_value, gain_mulVec, hH, setIdentity24, measure_mulVec]
    congr 1
    simp [div_eq_inv_mul]
  · simp only [correct]
    rw [h3, h2, inv2_scalar _ ha, gain_value, hP, cov_minus_gain]
    have hval : a - (a + 10)⁻¹ * a * a = 10 * a / (a + 10) := by
      field_simp
      ring
    rw [hval]

end cv.KalmanFilter

/-! ## Theorems: what one `nextFrame` cycle does to the tracker -/

namespace MotionDetector

/-- In a cycle that processes a frame pair and retains a contour, the filter goes through
`Marker.observeCycle` at the normalized centroid. -/
theorem nextFrame_kalman_observed (d : MotionDetector) (frame : Image) (found : List Contour)
    (hf : frame.empty = false) (hc : d._curr_frame.empty = false)
    (hs : d.getSignificantContours found ≠ []) :
    (d.nextFrame frame found)._marker._kalman
      = (d._marker.observeCycle
          { x := (tryGetCenterPoint (d.getSignificantContours found) ⟨0, 0⟩).2.x / frame.cols
            y := (tryGetCenterPoint (d.getSignificantContours found) ⟨0, 0⟩).2.y / frame.rows }
          frame.size)._kalman := by
  unfold nextFrame
  simp only [preprocessFrame, hf, hc, Bool.not_false, Bool.and_self, if_true]
  have hsig : ({ d with _prev_frame := d._curr_frame, _curr_frame := frame }
      : MotionDetector).getSignificantContours found = d.getSignificantContours found := rfl
  rw [hsig]
  cases hs2 : d.getSignificantContours found with
  | nil => exact absurd hs2 hs
  | cons c cs =>
    simp only [List.isEmpty_cons, Bool.not_false, if_true]
    have hg := detectGrip_frame
      { d with _prev_frame := d._curr_frame, _curr_frame := frame, _contours := c :: cs,
               _marker := (d._marker.getSmoothedPosition frame.size).2 }
      (d._marker.getSmoothedPosition frame.size).1.toPoint
    rw [hg.1]
    have hk := hg.2.2.2.2.2
    simp only [Image.size] at hk ⊢
    simp [tryGetCenterPoint, Marker.nextPositionIn, Marker.nextPosition, Marker.update,
      Marker.observeCycle, hk]

/-- In a cycle that processes a frame pair, the gesture state after the cycle is the one
`detectGrip` leaves when a contour was retained, and the old one otherwise. -/
theorem nextFrame_gesture (d : MotionDetector) (frame : Image) (found : List Contour)
    (hf : frame.empty = false) (hc : d._curr_frame.empty = false) :
    (d.getSignificantContours found ≠ [] →
        (d.nextFrame frame found)._last_frames_bb_area
            = (({ d with _prev_frame := d._curr_frame, _curr_frame := frame,
                         _contours := d.getSignificantContours found,
                         _marker := (d._marker.getSmoothedPosition frame.size).2 }
                : MotionDetector).detectGrip
                (d._marker.getSmoothedPosition frame.size).1.toPoint)._last_frames_bb_area
          ∧ (d.nextFrame frame found)._prev_enclosing_rect
            = (({ d with _prev_frame := d._curr_frame, _curr_frame := frame,
                         _contours := d.getSignificantContours found,
                         _marker := (d._marker.getSmoothedPosition frame.size).2 }
                : MotionDetector).detectGrip
                (d._marker.getSmoothedPosition frame.size).1.toPoint)._prev_enclosing_rect)
      ∧ (d.getSignificantContours found = [] →
          (d.nextFrame frame found)._last_frames_bb_area = d._last_frames_bb_area
            ∧ (d.nextFrame frame found)._prev_enclosing_rect = d._prev_enclosing_rect
            ∧ (d.nextFrame frame found)._marker._grip = d._marker._grip) := by
  have hsig : ({ d with _prev_frame := d._curr_frame, _curr_frame := frame }
      : MotionDetector).getSignificantContours found = d.getSignificantContours found := rfl
  constructor
  · intro hs
    unfold nextFrame
    simp only [preprocessFrame, hf, hc, Bool.not_false, Bool.and_self, if_true]
    rw [hsig]
    cases hs2 : d.getSignificantContours found with
    | nil => exact absurd hs2 hs
    | cons c cs =>
      simp only [List.isEmpty_cons, Bool.not_false, if_true]
      split <;> exact ⟨rfl, rfl⟩
  · intro hs
    unfold nextFrame
    simp only [preprocessFrame, hf, hc, Bool.not_false, Bool.and_self, if_true]
    rw [hsig, hs]
    simp [tryGetCenterPoint, Marker.update, Marker.getSmoothedPosition]

end MotionDetector

namespace Marker

open cv cv.KalmanFilter

theorem startingFrom_kalman (s : Fin 4 → ℚ) :
    Configured (startingFrom s)._kalman
      ∧ (startingFrom s)._kalman.errorCovPost = covDiag (1 / 2) (1 / 2)
      ∧ (startingFrom s)._kalman.statePost = s :=
  ⟨⟨rfl, rfl, rfl, rfl⟩, setIdentity44 (1 / 2), rfl⟩

/-- One observing cycle on a configured filter with diagonal covariance: the covariance
stays diagonal and the estimation error of each position component is multiplied by
`10 / (a + 0.1 + 10)`. -/
theorem observeCycle_step (m : Marker) (p : Point2f) (size : Point) (a b : ℚ)
    (hk : Configured m._kalman) (hP : m._kalman.errorCovPost = covDiag a b) (ha : 0 ≤ a) :
    Configured (m.observeCycle p size)._kalman
      ∧ (m.observeCycle p size)._kalman.errorCovPost
          = covDiag (10 * (a + 1 / 10) / (a + 1 / 10 + 10)) (b + 1 / 10)
      ∧ (m.observeCycle p size)._kalman.statePost 0 - p.x
          = 10 / (a + 1 / 10 + 10) * (m._kalman.statePost 0 - p.x)
      ∧ (m.observeCycle p size)._kalman.statePost 1 - p.y
          = 10 / (a + 1 / 10 + 10) * (m._kalman.statePost 1 - p.y) := by
  obtain ⟨hk1, hs1, hP1⟩ := predict_covDiag m._kalman a b hk hP
  have hne : a + 1 / 10 + 10 ≠ 0 := by positivity
  obtain ⟨hk2, hs2, hP2⟩ := correct_covDiag m._kalman.predict (a + 1 / 10) (b + 1 / 10)
    ![p.x, p.y] hk1 hP1 hne
  have hkal : (m.observeCycle p size)._kalman = m._kalman.predict.correct ![p.x, p.y] := rfl
  rw [hkal]
  refine ⟨hk2, hP2, ?_, ?_⟩
  · rw [hs2, hs1]
    simp only [Pi.add_apply, Matrix.cons_val_zero]
    field_simp
    ring
  · rw [hs2, hs1]
    simp only [Pi.add_apply, Matrix.cons_val_one, Matrix.head_cons]
    field_simp
    ring

theorem observeCycles_bound (s : Fin 4 → ℚ) (p : Point2f) (size : Point) (n : Nat) :
    Configured (observeCycles (startingFrom s) p size n)._kalman
      ∧ ∃ a b, 0 ≤ a
        ∧ (observeCycles (startingFrom s) p size n)._kalman.errorCovPost = covDiag a b
        ∧ |(observeCycles (startingFrom s) p size n)._kalman.statePost 0 - p.x|
            ≤ (100 / 101) ^ n * |s 0 - p.x|
        ∧ |(observeCycles (startingFrom s) p size n)._kalman.statePost 1 - p.y|
            ≤ (100 / 101) ^ n * |s 1 - p.y| := by
  induction n with
  | zero =>
    obtain ⟨hk, hP, hs⟩ := startingFrom_kalman s
    refine ⟨hk, 1 / 2, 1 / 2, by norm_num, hP, ?_, ?_⟩ <;> simp [observeCycles, hs]
  | succ n ih =>
    obtain ⟨hk, a, b, ha, hP, hx, hy⟩ := ih
    obtain ⟨hk2, hP2, hx2, hy2⟩ := observeCycle_step _ p size a b hk hP ha
    have hpos : (0 : ℚ) < a + 1 / 10 + 10 := by positivity
    have hfac : 10 / (a + 1 / 10 + 10) ≤ (100 : ℚ) / 101 := by
      rw [div_le_iff₀ hpos]
      linarith
    have hfac0 : (0 : ℚ) ≤ 10 / (a + 1 / 10 + 10) := by positivity
    refine ⟨hk2, _, _, by positivity, hP2, ?_, ?_⟩
    · show |(observeCycle _ p size)._kalman.statePost 0 - p.x| ≤ _
      rw [hx2, abs_mul, abs_of_nonneg hfac0, pow_succ]
      calc 10 / (a + 1 / 10 + 10) * |(observeCycles (startingFrom s) p size n)._kalman.statePost 0 - p.x|
          ≤ 100 / 101 * ((100 / 101) ^ n * |s 0 - p.x|) :=
            mul_le_mul hfac hx (abs_nonneg _) (by norm_num)
        _ = (100 / 101) ^ n * (100 / 101) * |s 0 - p.x| := by ring
    · show |(observeCycle _ p size)._kalman.statePost 1 - p.y| ≤ _
      rw [hy2, abs_mul, abs_of_nonneg hfac0, pow_succ]
      calc 10 / (a + 1 / 10 + 10) * |(observeCycles (startingFrom s) p size n)._kalman.statePost 1 - p.y|
          ≤ 100 / 101 * ((100 / 101) ^ n * |s 1 - p.y|) :=
            mul_le_mul hfac hy (abs_nonneg _) (by norm_num)
        _ = (100 / 101) ^ n * (100 / 101) * |s 1 - p.y| := by ring

theorem predictedAfter_state (s : Fin 4 → ℚ) (p : Point2f) (size : Point) (n : Nat) :
    (predictedAfter (startingFrom s) p size n).x
        = (observeCycles (startingFrom s) p size n)._kalman.statePost 0 * size.x
      ∧ (predictedAfter (startingFrom s) p size n).y
        = (observeCycles (startingFrom s) p size n)._kalman.statePost 1 * size.y := by
  obtain ⟨hk, a, b, _, hP, _, _⟩ := observeCycles_bound s p size n
  obtain ⟨_, hs, _⟩ := predict_covDiag _ a b hk hP
  constructor <;> simp [predictedAfter, getSmoothedPosition, hs]


/-- C10. With the filter configured as in the `Marker` constructor and starting from any
state estimate `s`, repeated cycles observing the fixed normalized point `p` make the
predicted position converge to `p` (scaled to the image size) in each coordinate: the
distance after `n` observations is at most `(100/101)^n` times the initial distance and
tends to 0; and when the initial estimate differs from `p` in a coordinate, the position
predicted after the first observation still differs from `p` in that coordinate. The
constructed marker is the case `s = 0`, and `observeCycle` is what a `nextFrame` cycle with
a retained contour does to the filter. -/
theorem kalman_converges (s : Fin 4 → ℚ) (p : Point2f) (size : Point) :
    (∀ n, |(predictedAfter (startingFrom s) p size n).x - p.x * size.x|
            ≤ (100 / 101) ^ n * |s 0 * size.x - p.x * size.x|)
      ∧ (∀ n, |(predictedAfter (startingFrom s) p size n).y - p.y * size.y|
            ≤ (100 / 101) ^ n * |s 1 * size.y - p.y * size.y|)
      ∧ Filter.Tendsto
          (fun n => |(predictedAfter (startingFrom s) p size n).x - p.x * size.x|)
          Filter.atTop (nhds 0)
      ∧ Filter.Tendsto
          (fun n => |(predictedAfter (startingFrom s) p size n).y - p.y * size.y|)
          Filter.atTop (nhds 0)
      ∧ (s 0 ≠ p.x → size.x ≠ 0 →
          (predictedAfter (startingFrom s) p size 1).x ≠ p.x * size.x)
      ∧ (s 1 ≠ p.y → size.y ≠ 0 →
          (predictedAfter (startingFrom s) p size 1).y ≠ p.y * size.y)
      ∧ startingFrom 0 = Marker.new
      ∧ (∀ (d : MotionDetector) (frame : Image) (found : List Contour),
          frame.empty = false → d._curr_frame.empty = false →
          d.getSignificantContours found ≠ [] →
          (d.nextFrame frame found)._marker._kalman
            = (d._marker.observeCycle
                { x := (MotionDetector.tryGetCenterPoint
                          (d.getSignificantContours found) ⟨0, 0⟩).2.x / frame.cols
                  y := (MotionDetector.tryGetCenterPoint
                          (d.getSignificantContours found) ⟨0, 0⟩).2.y / frame.rows }
                frame.size)._kalman) := by
  have hbx : ∀ n, |(predictedAfter (startingFrom s) p size n).x - p.x * size.x|
      ≤ (100 / 101) ^ n * |s 0 * size.x - p.x * size.x| := by
    intro n
    obtain ⟨_, a, b, _, _, hx, _⟩ := observeCycles_bound s p size n
    rw [(predictedAfter_state s p size n).1, ← sub_mul, ← sub_mul, abs_mul, abs_mul,
      ← mul_assoc]
    exact mul_le_mul_of_nonneg_right hx (abs_nonneg _)
  have hby : ∀ n, |(predictedAfter (startingFrom s) p size n).y - p.y * size.y|
      ≤ (100 / 101) ^ n * |s 1 * size.y - p.y * size.y| := by
    intro n
    obtain ⟨_, a, b, _, _, _, hy⟩ := observeCycles_bound s p size n
    rw [(predictedAfter_state s p size n).2, ← sub_mul, ← sub_mul, abs_mul, abs_mul,
      ← mul_assoc]
    exact mul_le_mul_of_nonneg_right hy (abs_nonneg _)
  have hgeo : ∀ c : ℚ, Filter.Tendsto (fun n : ℕ => (100 / 101 : ℚ) ^ n * c)
      Filter.atTop (nhds 0) := by
    intro c
    have h := (tendsto_pow_atTop_nhds_zero_of_lt_one (r := (100 / 101 : ℚ))
      (by norm_num) (by norm_num)).mul_const c
    simpa using h
  obtain ⟨hk, hP, hs⟩ := startingFrom_kalman s
  obtain ⟨_, _, hx1, hy1⟩ := observeCycle_step (startingFrom s) p size (1 / 2) (1 / 2) hk hP
    (by norm_num)
  refine ⟨hbx, hby, ?_, ?_, ?_, ?_, rfl, MotionDetector.nextFrame_kalman_observed⟩
  · exact tendsto_of_tendsto_of_tendsto_of_le_of_le tendsto_const_nhds (hgeo _)
      (fun n => abs_nonneg _) hbx
  · exact tendsto_of_tendsto_of_tendsto_of_le_of_le tendsto_const_nhds (hgeo _)
      (fun n => abs_nonneg _) hby
  · intro hne hsz heq
    rw [(predictedAfter_state s p size 1).1, ← sub_eq_zero, ← sub_mul] at heq
    have h0 : (observeCycles (startingFrom s) p size 1)._kalman.statePost 0 - p.x = 0 := by
      rcases mul_eq_zero.1 heq with h | h
      · exact h
      · exact absurd (by exact_mod_cast h) hsz
    have h1 : (observeCycles (startingFrom s) p size 1)._kalman.statePost 0 - p.x
        = 10 / (1 / 2 + 1 / 10 + 10) * (s 0 - p.x) := by
      rw [← hs]; exact hx1
    rw [h1] at h0
    rcases mul_eq_zero.1 h0 with h | h
    · norm_num at h
    · exact hne (sub_eq_zero.1 h)
  · intro hne hsz heq
    rw [(predictedAfter_state s p size 1).2, ← sub_eq_zero, ← sub_mul] at heq
    have h0 : (observeCycles (startingFrom s) p size 1)._kalman.statePost 1 - p.y = 0 := by
      rcases mul_eq_zero.1 heq with h | h
      · exact h
      · exact absurd (by exact_mod_cast h) hsz
    have h1 : (observeCycles (startingFrom s) p size 1)._kalman.statePost 1 - p.y
        = 10 / (1 / 2 + 1 / 10 + 10) * (s 1 - p.y) := by
      rw [← hs]; exact hy1
    rw [h1] at h0
    rcases mul_eq_zero.1 h0 with h | h
    · norm_num at h
    · exact hne (sub_eq_zero.1 h)


/-- Witness for C10: the constructed marker observing the frame centre `(1/2, 1/2)` of a
1300 by 720 frame does not predict `x = 650` after the first observation. -/
theorem kalman_converges_witness :
    (predictedAfter (startingFrom 0) ⟨1 / 2, 1 / 2⟩ ⟨1300, 720⟩ 1).x ≠ 1 / 2 * ((1300 : Int) : ℚ) :=
  (kalman_converges 0 ⟨1 / 2, 1 / 2⟩ ⟨1300, 720⟩).2.2.2.2.1 (by norm_num) (by norm_num)

end Marker

/-! ## Theorems: the worked scenarios -/

namespace DetectorThread

theorem threadAfterFirstFrame_state :
    threadAfterFirstFrame._capture._queue = [cameraFrame 2]
      ∧ threadAfterFirstFrame.detector
          = { MotionDetector.new 1300 720 with _curr_frame := cameraFrame 1 }
      ∧ threadAfterFirstFrame.marker_positions = { _queue := [⟨0, 0⟩], _size_limit := 3 } := by
  refine ⟨by decide, ?_, ?_⟩
  · simp [threadAfterFirstFrame, runStep, DetectorThread.new, message_queue.try_pop,
      MotionDetector.nextFrame, MotionDetector.new, MotionDetector.preprocessFrame,
      Image.empty, Image.none, cameraFrame]
  · simp [threadAfterFirstFrame, runStep, DetectorThread.new, message_queue.try_pop,
      message_queue.try_push, message_queue.new,
      MotionDetector.nextFrame, MotionDetector.new, MotionDetector.preprocessFrame,
      MotionDetector.getMarkerPos, Marker.getLastPosition, Marker.new,
      Image.empty, Image.none, cameraFrame]

theorem centreContour_significant :
    ({ MotionDetector.new 1300 720 with _curr_frame := cameraFrame 1 }
      : MotionDetector).getSignificantContours [centreContour] = [centreContour] := by
  rw [MotionDetector.getSignificantContours, MotionDetector.significant_foldl]
  norm_num [MotionDetector.new, centreContour]

/-- C4 fails as stated: in the second cycle of the scenario the filter's predicted position
is `(0, 0)`, and the position pushed to the queue (after the `(0, 0)` of the first cycle) is
the raw centroid `(650, 360)`. -/
theorem pushed_position_not_smoothed :
    (threadAfterFirstFrame.detector._marker.getSmoothedPosition (cameraFrame 2).size).1
        = ⟨0, 0⟩
      ∧ (threadAfterFirstFrame.runStep [centreContour]).marker_positions._queue
        = [⟨0, 0⟩, ⟨650, 360⟩] := by
  obtain ⟨h1, h2, h3⟩ := threadAfterFirstFrame_state
  constructor
  · rw [h2]
    simp [Marker.getSmoothedPosition, MotionDetector.new, Marker.new, cv.KalmanFilter.predict,
      cv.KalmanFilter.init]
  · rw [(runStep_popped _ _ _ _ h1).2, h3, h2]
    have hl := MotionDetector.nextFrame_last_position
      { MotionDetector.new 1300 720 with _curr_frame := cameraFrame 1 } (cameraFrame 2)
      [centreContour]
    rw [centreContour_significant, if_pos ⟨by decide, by decide, by simp⟩] at hl
    obtain ⟨hc, hw, hh⟩ := MotionDetector.nextFrame_frame
      { MotionDetector.new 1300 720 with _curr_frame := cameraFrame 1 } (cameraFrame 2)
      [centreContour]
    simp only [message_queue.try_push, MotionDetector.getMarkerPos, hc, hw, hh,
      Marker.getLastPosition, hl]
    norm_num [MotionDetector.tryGetCenterPoint, centreContour, cameraFrame, Image.empty,
      MotionDetector.new]

/-- Witness for C4: in the second cycle of the scenario the stored position becomes the
centroid `(650, 360)` divided by the frame size 1300 by 720. -/
theorem runStep_pushes_last_position_witness :
    (threadAfterFirstFrame.runStep [centreContour]).detector._marker._last_position
      = ⟨1 / 2, 1 / 2⟩ := by
  have hq := threadAfterFirstFrame_state.1
  have hd := threadAfterFirstFrame_state.2.1
  have hs : threadAfterFirstFrame.detector.getSignificantContours [centreContour]
      = [centreContour] := by
    rw [hd]; exact centreContour_significant
  have h := (runStep_pushes_last_position threadAfterFirstFrame [centreContour]).2.1
    (cameraFrame 2) [] hq (by decide) (by decide) (by rw [hs]; simp)
  rw [h, hs]
  norm_num [MotionDetector.tryGetCenterPoint, centreContour, cameraFrame]

end DetectorThread

namespace MotionDetector

/-- Whatever the marker position, `detectGrip` ends by storing the rectangle it computed
as the previous enclosing rectangle; the settings are not touched. -/
theorem detectGrip_stored (d : MotionDetector) (p : cv.Point) :
    (d.detectGrip p)._prev_enclosing_rect = d.findEnclosingRect
      ∧ (d.detectGrip p).settings = d.settings := by
  unfold detectGrip
  refine ⟨rfl, ?_⟩
  simp only []
  split <;> rfl

theorem detectGrip_outside (d : MotionDetector) (p : cv.Point)
    (hout : (d._prev_enclosing_rect.contains p || d.findEnclosingRect.contains p) = false) :
    (d.detectGrip p)._last_frames_bb_area = d._last_frames_bb_area
      ∧ (d.detectGrip p)._marker = d._marker := by
  simp [detectGrip, hout]

theorem nextFrame_settings (d : MotionDetector) (frame : Image) (found : List Contour) :
    (d.nextFrame frame found).settings = d.settings := by
  unfold nextFrame
  simp only [preprocessFrame]
  split_ifs
  all_goals first
    | rfl
    | exact (detectGrip_stored _ _).2

theorem significant_settings (d e : MotionDetector) (h : d.settings = e.settings)
    (cs : List Contour) : d.getSignificantContours cs = e.getSignificantContours cs := by
  unfold getSignificantContours
  rw [h]

/-- A `nextFrame` call in which no contour survives the filter, with or without a frame
pair, leaves the grip history and the stored rectangle as they were. -/
theorem nextFrame_idle (d : MotionDetector) (frame : Image) (found : List Contour)
    (hs : d.getSignificantContours found = []) :
    (d.nextFrame frame found)._last_frames_bb_area = d._last_frames_bb_area
      ∧ (d.nextFrame frame found)._prev_enclosing_rect = d._prev_enclosing_rect := by
  have hsig : ({ d with _prev_frame := d._curr_frame, _curr_frame := frame }
      : MotionDetector).getSignificantContours found = d.getSignificantContours found := rfl
  unfold nextFrame
  simp only [preprocessFrame]
  rw [hsig, hs]
  split <;> simp [tryGetCenterPoint]

theorem nextFrame_idle_run (later : List (Image × List Contour)) (d : MotionDetector)
    (hs : ∀ i ∈ later, d.getSignificantContours i.2 = []) :
    (later.foldl (fun e i => e.nextFrame i.1 i.2) d)._last_frames_bb_area
        = d._last_frames_bb_area
      ∧ (later.foldl (fun e i => e.nextFrame i.1 i.2) d)._prev_enclosing_rect
        = d._prev_enclosing_rect := by
  induction later generalizing d with
  | nil => exact ⟨rfl, rfl⟩
  | cons i rest ih =>
    have h0 := hs i (List.mem_cons_self _ _)
    obtain ⟨a1, a2⟩ := nextFrame_idle d i.1 i.2 h0
    have hrest : ∀ j ∈ rest, (d.nextFrame i.1 i.2).getSignificantContours j.2 = [] := by
      intro j hj
      rw [significant_settings _ d (nextFrame_settings d i.1 i.2)]
      exact hs j (List.mem_cons_of_mem _ hj)
    obtain ⟨b1, b2⟩ := ih (d.nextFrame i.1 i.2) hrest
    simp only [List.foldl_cons]
    exact ⟨by rw [b1, a1], by rw [b2, a2]⟩

/-- C7, as the code has it: in a tracking cycle (a frame pair is present) in which at
least one contour survived the filter, if the predicted marker position, rounded to a
pixel, lies inside the stored previous enclosing rectangle or inside the current one, the
current rectangle's area integer-divided by 10000 is appended to the grip history (the
oldest entry leaving once there are more than 5), and if it lies in neither the history
and the grip flag are unchanged; in a cycle in which no contour survived, the history, the
stored rectangle and the grip flag are left as they were. The stored previous rectangle is
that of the most recent cycle in which a contour survived: such a cycle stores its
enclosing rectangle whether or not the marker was inside, and the stored rectangle and the
history then stay through every later run of `nextFrame` calls in which no contour
survives. -/
theorem nextFrame_appends_area (d : MotionDetector) (frame : Image) (found : List Contour)
    (hf : frame.empty = false) (hc : d._curr_frame.empty = false) :
    (d.getSignificantContours found ≠ [] →
        (d._prev_enclosing_rect.contains
              (d._marker.getSmoothedPosition frame.size).1.toPoint
            || ({ d with _contours := d.getSignificantContours found }
                  : MotionDetector).findEnclosingRect.contains
                (d._marker.getSmoothedPosition frame.size).1.toPoint) = true →
        (d.nextFrame frame found)._last_frames_bb_area
          = pushArea d._last_frames_bb_area
              (Int.tdiv ({ d with _contours := d.getSignificantContours found }
                  : MotionDetector).findEnclosingRect.area 10000))
      ∧ (d.getSignificantContours found = [] →
          (d.nextFrame frame found)._last_frames_bb_area = d._last_frames_bb_area
            ∧ (d.nextFrame frame found)._prev_enclosing_rect = d._prev_enclosing_rect
            ∧ (d.nextFrame frame found)._marker._grip = d._marker._grip)
      ∧ (d.getSignificantContours found ≠ [] →
          (d.nextFrame frame found)._prev_enclosing_rect
            = ({ d with _contours := d.getSignificantContours found }
                : MotionDetector).findEnclosingRect)
      ∧ (d.getSignificantContours found ≠ [] →
          (d._prev_enclosing_rect.contains
                (d._marker.getSmoothedPosition frame.size).1.toPoint
              || ({ d with _contours := d.getSignificantContours found }
                    : MotionDetector).findEnclosingRect.contains
                  (d._marker.getSmoothedPosition frame.size).1.toPoint) = false →
          (d.nextFrame frame found)._last_frames_bb_area = d._last_frames_bb_area)
      ∧ (d.getSignificantContours found ≠ [] →
          ∀ later : List (Image × List Contour),
            (∀ i ∈ later, d.getSignificantContours i.2 = []) →
            (later.foldl (fun e i => e.nextFrame i.1 i.2)
                (d.nextFrame frame found))._prev_enclosing_rect
              = ({ d with _contours := d.getSignificantContours found }
                  : MotionDetector).findEnclosingRect
            ∧ (later.foldl (fun e i => e.nextFrame i.1 i.2)
                (d.nextFrame frame found))._last_frames_bb_area
              = (d.nextFrame frame found)._last_frames_bb_area) := by
  obtain ⟨h1, h2⟩ := nextFrame_gesture d frame found hf hc
  have hstored : d.getSignificantContours found ≠ [] →
      (d.nextFrame frame found)._prev_enclosing_rect
        = ({ d with _contours := d.getSignificantContours found }
            : MotionDetector).findEnclosingRect := by
    intro hs
    rw [(h1 hs).2, (detectGrip_stored _ _).1]
    rfl
  refine ⟨?_, h2, hstored, ?_, ?_⟩
  · intro hs hin
    rw [(h1 hs).1]
    exact (detectGrip_inside
      { d with _prev_frame := d._curr_frame, _curr_frame := frame,
               _contours := d.getSignificantContours found,
               _marker := (d._marker.getSmoothedPosition frame.size).2 }
      (d._marker.getSmoothedPosition frame.size).1.toPoint hin).1
  · intro hs hout
    rw [(h1 hs).1]
    exact (detectGrip_outside
      { d with _prev_frame := d._curr_frame, _curr_frame := frame,
               _contours := d.getSignificantContours found,
               _marker := (d._marker.getSmoothedPosition frame.size).2 }
      (d._marker.getSmoothedPosition frame.size).1.toPoint hout).1
  · intro hs later hlater
    have hl : ∀ i ∈ later, (d.nextFrame frame found).getSignificantContours i.2 = [] := by
      intro i hi
      rw [significant_settings _ d (nextFrame_settings d frame found)]
      exact hlater i hi
    obtain ⟨r1, r2⟩ := nextFrame_idle_run later (d.nextFrame frame found) hl
    exact ⟨by rw [r2, hstored hs], r1⟩

theorem detectorAfterFirstFrame_eq :
    detectorAfterFirstFrame = { MotionDetector.new 1300 720 with _curr_frame := cameraFrame 1 } := by
  simp [detectorAfterFirstFrame, MotionDetector.nextFrame, MotionDetector.new,
    MotionDetector.preprocessFrame, Image.empty, Image.none, cameraFrame]

theorem cornerContour_significant :
    detectorAfterFirstFrame.getSignificantContours [cornerContour] = [cornerContour] := by
  rw [detectorAfterFirstFrame_eq, MotionDetector.getSignificantContours,
    MotionDetector.significant_foldl]
  norm_num [MotionDetector.new, cornerContour]

theorem new_predicts_origin (size : cv.Point) :
    (Marker.new.getSmoothedPosition size).1.toPoint = ⟨0, 0⟩ := by
  simp [Marker.getSmoothedPosition, Marker.new, cv.KalmanFilter.predict,
    cv.KalmanFilter.init, cv.Point2f.toPoint, cv.cvRound]

theorem detectorAfterFirstFrame_marker : detectorAfterFirstFrame._marker = Marker.new := by
  rw [detectorAfterFirstFrame_eq]
  rfl

end MotionDetector

namespace MotionDetector

theorem cvRound_example : cv.cvRound (30 / 53) = 1 := by
  have hfl : ⌊(30 / 53 : ℚ)⌋ = 0 := by
    rw [Int.floor_eq_iff]
    norm_num
  simp only [cv.cvRound, hfl]
  norm_num

theorem detectorAfterMotion_prediction :
    (detectorAfterMotion._marker.getSmoothedPosition (cameraFrame 3).size).1.toPoint
      = ⟨1, 1⟩ := by
  have hk := nextFrame_kalman_observed detectorAfterFirstFrame (cameraFrame 2) [cornerContour]
    (by decide) (by rw [detectorAfterFirstFrame_eq]; decide)
    (by rw [cornerContour_significant]; simp)
  rw [cornerContour_significant, detectorAfterFirstFrame_marker] at hk
  obtain ⟨hc0, hP0, hs0⟩ := Marker.startingFrom_kalman 0
  obtain ⟨hc1, hP1, hx1, hy1⟩ := Marker.observeCycle_step (Marker.startingFrom 0)
    { x := (tryGetCenterPoint [cornerContour] ⟨0, 0⟩).2.x / (cameraFrame 2).cols
      y := (tryGetCenterPoint [cornerContour] ⟨0, 0⟩).2.y / (cameraFrame 2).rows }
    (cameraFrame 2).size (1 / 2) (1 / 2) hc0 hP0 (by norm_num)
  have hnew : Marker.startingFrom 0 = Marker.new := rfl
  rw [hnew] at hc1 hP1 hx1 hy1
  rw [← hk] at hc1 hP1 hx1 hy1
  obtain ⟨_, hpre, _⟩ := cv.KalmanFilter.predict_covDiag _ _ _ hc1 hP1
  have hx : detectorAfterMotion._marker._kalman.statePost 0 = 3 / 6890 := by
    have h := hx1
    show (detectorAfterFirstFrame.nextFrame (cameraFrame 2)
      [cornerContour])._marker._kalman.statePost 0 = _
    generalize (detectorAfterFirstFrame.nextFrame (cameraFrame 2)
      [cornerContour])._marker._kalman.statePost 0 = v at h ⊢
    norm_num [tryGetCenterPoint, cornerContour, cameraFrame, Marker.new,
      cv.KalmanFilter.init] at h
    linarith
  have hy : detectorAfterMotion._marker._kalman.statePost 1 = 1 / 1272 := by
    have h := hy1
    show (detectorAfterFirstFrame.nextFrame (cameraFrame 2)
      [cornerContour])._marker._kalman.statePost 1 = _
    generalize (detectorAfterFirstFrame.nextFrame (cameraFrame 2)
      [cornerContour])._marker._kalman.statePost 1 = v at h ⊢
    norm_num [tryGetCenterPoint, cornerContour, cameraFrame, Marker.new,
      cv.KalmanFilter.init] at h
    linarith
  have hval : (detectorAfterMotion._marker.getSmoothedPosition (cameraFrame 3).size).1
      = ⟨30 / 53, 30 / 53⟩ := by
    simp only [Marker.getSmoothedPosition]
    rw [show detectorAfterMotion._marker._kalman.predict.statePre
      = detectorAfterMotion._marker._kalman.statePost from hpre, hx, hy]
    norm_num [cameraFrame, Image.size]
  rw [hval]
  simp [cv.Point2f.toPoint, cvRound_example]

end MotionDetector

namespace MotionDetector

theorem detectorAfterMotion_gesture :
    detectorAfterMotion._prev_enclosing_rect = ⟨0, 0, 21, 21⟩
      ∧ detectorAfterMotion._last_frames_bb_area = [0]
      ∧ detectorAfterMotion._curr_frame = cameraFrame 2 := by
  have h := (nextFrame_gesture detectorAfterFirstFrame (cameraFrame 2) [cornerContour]
    (by decide) (by rw [detectorAfterFirstFrame_eq]; decide)).1
    (by rw [cornerContour_significant]; simp)
  rw [cornerContour_significant, detectorAfterFirstFrame_marker, new_predicts_origin,
    detectorAfterFirstFrame_eq] at h
  refine ⟨?_, ?_, (nextFrame_frame _ _ _).1⟩
  · rw [detectorAfterMotion, detectorAfterFirstFrame_eq, h.2]
    decide
  · rw [detectorAfterMotion, detectorAfterFirstFrame_eq, h.1]
    decide

theorem detectorAfterMotion_settings : detectorAfterMotion.settings = {} := by
  rw [detectorAfterMotion, nextFrame_settings, detectorAfterFirstFrame, nextFrame_settings]
  rfl

theorem centreContour_retained :
    detectorAfterMotion.getSignificantContours [centreContour] = [centreContour] := by
  rw [getSignificantContours, significant_foldl, detectorAfterMotion_settings]
  norm_num [centreContour]

/-- Witness for C7: the second cycle of the scenario retains `cornerContour`, the
predicted position `(0, 0)` lies in its 21 by 21 rectangle, and the bucket `441 / 10000 = 0`
is appended to the empty history. The third cycle retains `centreContour`; the predicted
position `(1, 1)` lies outside its rectangle `[640,350 21x21]` and inside the rectangle
`[0,0 21x21]` stored by the second cycle, so the bucket 0 is appended again, and the third
cycle stores its own rectangle. -/
theorem nextFrame_appends_area_witness :
    detectorAfterMotion._last_frames_bb_area = [0]
      ∧ (detectorAfterMotion.nextFrame (cameraFrame 3) [centreContour])._last_frames_bb_area
          = [0, 0]
      ∧ (detectorAfterMotion.nextFrame (cameraFrame 3) [centreContour])._prev_enclosing_rect
          = ⟨640, 350, 21, 21⟩ := by
  have h := (nextFrame_appends_area detectorAfterFirstFrame (cameraFrame 2) [cornerContour]
    (by decide) (by rw [detectorAfterFirstFrame_eq]; decide)).1
    (by rw [cornerContour_significant]; simp)
    (by
      rw [cornerContour_significant, detectorAfterFirstFrame_marker, new_predicts_origin]
      rw [detectorAfterFirstFrame_eq]
      decide)
  obtain ⟨hr, hh, hc⟩ := detectorAfterMotion_gesture
  have hcur : ({ detectorAfterMotion with _contours := [centreContour] }
      : MotionDetector).findEnclosingRect = ⟨640, 350, 21, 21⟩ := by decide
  have h3 := nextFrame_appends_area detectorAfterMotion (cameraFrame 3) [centreContour]
    (by decide) (by rw [hc]; decide)
  have hne : detectorAfterMotion.getSignificantContours [centreContour] ≠ [] := by
    rw [centreContour_retained]; simp
  have hin := h3.1 hne (by
    rw [detectorAfterMotion_prediction, hr]
    rfl)
  have hst := h3.2.2.1 hne
  rw [centreContour_retained] at hin hst
  rw [hcur] at hin hst
  refine ⟨?_, ?_, hst⟩
  · rw [detectorAfterMotion, h, cornerContour_significant, detectorAfterFirstFrame_eq]
    decide
  · rw [hin, hh]
    decide

/-- C7 fails as stated: in the third cycle of the scenario a frame pair is present, no
contour is traced, and the predicted position `(1, 1)` lies inside the enclosing rectangle
of the preceding cycle; the history stays `[0]`, where the claim has the bucket of the
current (empty) rectangle appended, giving `[0, 0]`. -/
theorem nextFrame_no_contour_no_append :
    (cameraFrame 3).empty = false
      ∧ detectorAfterMotion._curr_frame.empty = false
      ∧ detectorAfterMotion._prev_enclosing_rect.contains
          (detectorAfterMotion._marker.getSmoothedPosition (cameraFrame 3).size).1.toPoint
            = true
      ∧ detectorAfterMotion._last_frames_bb_area = [0]
      ∧ (detectorAfterMotion.nextFrame (cameraFrame 3) [])._last_frames_bb_area = [0]
      ∧ pushArea detectorAfterMotion._last_frames_bb_area
          (Int.tdiv ({ detectorAfterMotion with
                        _contours := detectorAfterMotion.getSignificantContours [] }
                      : MotionDetector).findEnclosingRect.area 10000) = [0, 0] := by
  obtain ⟨hr, hh, hc⟩ := detectorAfterMotion_gesture
  have he : detectorAfterMotion._curr_frame.empty = false := by rw [hc]; decide
  refine ⟨by decide, he, ?_, hh, ?_, ?_⟩
  · rw [detectorAfterMotion_prediction, hr]
    decide
  · rw [((nextFrame_gesture detectorAfterMotion (cameraFrame 3) [] (by decide) he).2 rfl).1,
      hh]
  · rw [hh]
    decide

end MotionDetector

namespace Marker

/-- Witness for C9: the third cycle of the scenario has a frame pair and traces no
contour; the marker ends it as the predicted marker after `nextPosition` at the stored
position, and the stored position is still the second cycle's normalized centroid
`(10/1300, 10/720)`. -/
theorem update_eq_nextPosition_witness :
    (detectorAfterMotion.nextFrame (cameraFrame 3) [])._marker
        = (detectorAfterMotion._marker.getSmoothedPosition (cameraFrame 3).size).2.nextPosition
            detectorAfterMotion._marker._last_position
      ∧ (detectorAfterMotion.nextFrame (cameraFrame 3) [])._marker._last_position
        = ⟨1 / 130, 1 / 72⟩ := by
  have hc : detectorAfterMotion._curr_frame.empty = false := by
    rw [MotionDetector.detectorAfterMotion_gesture.2.2]; decide
  have h := (update_eq_nextPosition detectorAfterMotion._marker).2.2.2.2.2.2.2.2.2
    detectorAfterMotion (cameraFrame 3) [] rfl (by decide) hc rfl
  refine ⟨h.2.1, ?_⟩
  rw [h.1]
  have hl := MotionDetector.nextFrame_last_position detectorAfterFirstFrame (cameraFrame 2)
    [cornerContour]
  rw [MotionDetector.cornerContour_significant,
    if_pos ⟨by decide, by rw [MotionDetector.detectorAfterFirstFrame_eq]; decide, by simp⟩] at hl
  show (detectorAfterFirstFrame.nextFrame (cameraFrame 2) [cornerContour])._marker._last_position
    = _
  rw [hl]
  norm_num [MotionDetector.tryGetCenterPoint, cornerContour, cameraFrame]

end Marker

/-! ## Theorems: the grip history -/

namespace MotionDetector

theorem pushArea_length (h : List Int) (a : Int) (hlen : h.length ≤ 5) :
    (pushArea h a).length ≤ 5 := by
  unfold pushArea
  simp only []
  split
  · simp only [List.length_tail, List.length_append, List.length_singleton]
    omega
  · omega

theorem detectGrip_history (d : MotionDetector) (p : cv.Point) :
    (d.detectGrip p)._last_frames_bb_area = d._last_frames_bb_area
      ∨ (d.detectGrip p)._last_frames_bb_area
          = pushArea d._last_frames_bb_area (Int.tdiv d.findEnclosingRect.area 10000) := by
  unfold detectGrip
  simp only []
  split
  · exact Or.inr rfl
  · exact Or.inl rfl

theorem detectGrip_length (d : MotionDetector) (p : cv.Point)
    (hlen : d._last_frames_bb_area.length ≤ 5) :
    (d.detectGrip p)._last_frames_bb_area.length ≤ 5 := by
  rcases detectGrip_history d p with h | h
  · rw [h]; exact hlen
  · rw [h]; exact pushArea_length _ _ hlen

theorem nextFrame_length (d : MotionDetector) (frame : Image) (found : List Contour)
    (hlen : d._last_frames_bb_area.length ≤ 5) :
    (d.nextFrame frame found)._last_frames_bb_area.length ≤ 5 := by
  unfold nextFrame
  simp only [preprocessFrame]
  split_ifs
  all_goals first
    | exact hlen
    | exact detectGrip_length _ _ hlen

theorem nextFrame_run_length (inputs : List (Image × List Contour)) (d : MotionDetector)
    (hlen : d._last_frames_bb_area.length ≤ 5) :
    (inputs.foldl (fun d i => d.nextFrame i.1 i.2) d)._last_frames_bb_area.length ≤ 5 := by
  induction inputs generalizing d with
  | nil => exact hlen
  | cons i rest ih => exact ih _ (nextFrame_length d i.1 i.2 hlen)

/-- C12. A call of `detectGrip` on a history of length at most 5 leaves a history of
length at most 5, so every run of `nextFrame` cycles from a fresh detector (empty history)
keeps the bound; a call that appends to a history `h1..h5` leaves `h2, h3, h4, h5, a` with
`a` the new area bucket; and a call whose marker position lies in neither rectangle leaves
the history and the marker (hence the grip flag) unchanged. -/
theorem detectGrip_history_invariant (d : MotionDetector) (marker_pos : cv.Point) :
    (d._last_frames_bb_area.length ≤ 5 →
        (d.detectGrip marker_pos)._last_frames_bb_area.length ≤ 5)
      ∧ (∀ (w h : Nat) (inputs : List (Image × List Contour)),
          (MotionDetector.new w h)._last_frames_bb_area = []
            ∧ (inputs.foldl (fun d i => d.nextFrame i.1 i.2)
                (MotionDetector.new w h))._last_frames_bb_area.length ≤ 5)
      ∧ (∀ h1 h2 h3 h4 h5 : Int, d._last_frames_bb_area = [h1, h2, h3, h4, h5] →
          (d._prev_enclosing_rect.contains marker_pos
              || d.findEnclosingRect.contains marker_pos) = true →
          (d.detectGrip marker_pos)._last_frames_bb_area
            = [h2, h3, h4, h5, Int.tdiv d.findEnclosingRect.area 10000])
      ∧ ((d._prev_enclosing_rect.contains marker_pos
              || d.findEnclosingRect.contains marker_pos) = false →
          (d.detectGrip marker_pos)._last_frames_bb_area = d._last_frames_bb_area
            ∧ (d.detectGrip marker_pos)._marker = d._marker
            ∧ (d.detectGrip marker_pos)._marker.hasGrip = d._marker.hasGrip) := by
  refine ⟨detectGrip_length d marker_pos, ?_, ?_, ?_⟩
  · intro w h inputs
    exact ⟨rfl, nextFrame_run_length inputs _ (by simp [MotionDetector.new])⟩
  · intro h1 h2 h3 h4 h5 hh hin
    rw [(detectGrip_inside d marker_pos hin).1, hh]
    rfl
  · intro hout
    simp [detectGrip, hout]

/-- Witness for C12: the full history `[1,2,3,4,5]` receiving the bucket 3 of a 200 by 150
rectangle becomes `[2,3,4,5,3]`. -/
theorem detectGrip_history_invariant_witness :
    ((gripScene [1, 2, 3, 4, 5] false 200 150).detectGrip ⟨10, 10⟩)._last_frames_bb_area
      = [2, 3, 4, 5, 3] :=
  (detectGrip_history_invariant (gripScene [1, 2, 3, 4, 5] false 200 150) ⟨10, 10⟩).2.2.1
    1 2 3 4 5 rfl (by decide)

end MotionDetector

/-! ## Theorems: the enclosing rectangle -/

namespace MotionDetector

theorem enclosingRect_spec (a b : cv.Rect) :
    (enclosingRect a b).x = min a.x b.x
      ∧ (enclosingRect a b).y = min a.y b.y
      ∧ (enclosingRect a b).x + (enclosingRect a b).width
          = max (a.x + a.width) (b.x + b.width)
      ∧ (enclosingRect a b).y + (enclosingRect a b).height
          = max (a.y + a.height) (b.y + b.height) := by
  simp [enclosingRect]

theorem enclosingRect_encloses (a b : cv.Rect) :
    (enclosingRect a b).encloses a ∧ (enclosingRect a b).encloses b
      ∧ ∀ r : cv.Rect, r.encloses a → r.encloses b → r.encloses (enclosingRect a b) := by
  obtain ⟨hx, hy, hr, hbt⟩ := enclosingRect_spec a b
  refine ⟨⟨?_, ?_, ?_, ?_⟩, ⟨?_, ?_, ?_, ?_⟩, ?_⟩
  · rw [hx]; exact min_le_left _ _
  · rw [hy]; exact min_le_left _ _
  · rw [hr]; exact le_max_left _ _
  · rw [hbt]; exact le_max_left _ _
  · rw [hx]; exact min_le_right _ _
  · rw [hy]; exact min_le_right _ _
  · rw [hr]; exact le_max_right _ _
  · rw [hbt]; exact le_max_right _ _
  · intro r h1 h2
    refine ⟨?_, ?_, ?_, ?_⟩
    · rw [hx]; exact le_min h1.1 h2.1
    · rw [hy]; exact le_min h1.2.1 h2.2.1
    · rw [hr]; exact max_le h1.2.2.1 h2.2.2.1
    · rw [hbt]; exact max_le h1.2.2.2 h2.2.2.2

theorem enclosingRect_positive (a b : cv.Rect) (hw : 0 < a.width) (hh : 0 < a.height) :
    0 < (enclosingRect a b).width ∧ 0 < (enclosingRect a b).height := by
  obtain ⟨hx, hy, hr, hbt⟩ := enclosingRect_spec a b
  have h1 : (enclosingRect a b).x ≤ a.x := by rw [hx]; exact min_le_left _ _
  have h2 : (enclosingRect a b).y ≤ a.y := by rw [hy]; exact min_le_left _ _
  have h3 : a.x + a.width ≤ (enclosingRect a b).x + (enclosingRect a b).width := by
    rw [hr]; exact le_max_left _ _
  have h4 : a.y + a.height ≤ (enclosingRect a b).y + (enclosingRect a b).height := by
    rw [hbt]; exact le_max_left _ _
  constructor <;> omega

theorem encloses_trans (r s t : cv.Rect) (h1 : r.encloses s) (h2 : s.encloses t) :
    r.encloses t := by
  obtain ⟨a1, a2, a3, a4⟩ := h1
  obtain ⟨b1, b2, b3, b4⟩ := h2
  exact ⟨by omega, by omega, by omega, by omega⟩

/-- The accumulation of `findEnclosingRect` continued from a rectangle of positive width
and height over boxes of positive width and height. -/
theorem accumulate_boxes (cs : List Contour) (big : cv.Rect)
    (hw : 0 < big.width) (hh : 0 < big.height) :
    (cs.foldl
        (fun big_bb contour =>
          if big_bb.area = 0 then contour.bb else enclosingRect big_bb contour.bb) big).encloses big
      ∧ (∀ c ∈ cs,
          (cs.foldl
            (fun big_bb contour =>
              if big_bb.area = 0 then contour.bb else enclosingRect big_bb contour.bb)
            big).encloses c.bb)
      ∧ ∀ r : cv.Rect, r.encloses big → (∀ c ∈ cs, r.encloses c.bb) →
          r.encloses
            (cs.foldl
              (fun big_bb contour =>
                if big_bb.area = 0 then contour.bb else enclosingRect big_bb contour.bb)
              big) := by
  induction cs generalizing big with
  | nil =>
    refine ⟨⟨le_refl _, le_refl _, le_refl _, le_refl _⟩, ?_, ?_⟩
    · intro c hc; simp at hc
    · intro r hr _; exact hr
  | cons c cs ih =>
    have harea : big.area ≠ 0 := by
      unfold cv.Rect.area
      exact ne_of_gt (mul_pos hw hh)
    obtain ⟨e1, e2, e3⟩ := enclosingRect_encloses big c.bb
    obtain ⟨p1, p2⟩ := enclosingRect_positive big c.bb hw hh
    obtain ⟨i1, i2, i3⟩ := ih (enclosingRect big c.bb) p1 p2
    simp only [List.foldl_cons, if_neg harea]
    refine ⟨encloses_trans _ _ _ i1 e1, ?_, ?_⟩
    · intro c' hc'
      rcases List.mem_cons.1 hc' with h | h
      · rw [h]; exact encloses_trans _ _ _ i1 e2
      · exact i2 c' h
    · intro r hr hall
      exact i3 r (e3 r hr (hall c (List.mem_cons_self _ _)))
        (fun c' hc' => hall c' (List.mem_cons_of_mem _ hc'))


theorem foldl_min_le (ps : List cv.Point) (f : cv.Point → Int) (a : Int) :
    ps.foldl (fun m q => min m (f q)) a ≤ a := by
  induction ps generalizing a with
  | nil => exact le_refl _
  | cons p ps ih => exact le_trans (ih _) (min_le_left _ _)

theorem le_foldl_max (ps : List cv.Point) (f : cv.Point → Int) (a : Int) :
    a ≤ ps.foldl (fun m q => max m (f q)) a := by
  induction ps generalizing a with
  | nil => exact le_refl _
  | cons p ps ih => exact le_trans (le_max_left _ _) (ih _)

/-- The bounding rectangle of a non-empty point set is at least 1 by 1. -/
theorem boundingRect_positive (pts : List cv.Point) (hne : pts ≠ []) :
    0 < (cv.boundingRect pts).width ∧ 0 < (cv.boundingRect pts).height := by
  cases pts with
  | nil => exact absurd rfl hne
  | cons p ps =>
    have h1 := foldl_min_le ps (fun q => q.x) p.x
    have h2 := le_foldl_max ps (fun q => q.x) p.x
    have h3 := foldl_min_le ps (fun q => q.y) p.y
    have h4 := le_foldl_max ps (fun q => q.y) p.y
    simp only [cv.boundingRect]
    constructor <;> omega

/-- C13. For rectangles of non-negative width and height, `enclosingRect a b` has
left = min of lefts, top = min of tops, right = max of rights, bottom = max of bottoms,
encloses both and is enclosed by every rectangle enclosing both; and for a non-empty list
of retained contours, each box being the `cv::boundingRect` of the contour's non-empty
simplified polygon, the rectangle accumulated by `findEnclosingRect` encloses every box and
is enclosed by every rectangle that encloses every box. -/
theorem findEnclosingRect_minimal (d : MotionDetector) :
    (∀ a b : cv.Rect, 0 ≤ a.width → 0 ≤ a.height → 0 ≤ b.width → 0 ≤ b.height →
        (enclosingRect a b).x = min a.x b.x
          ∧ (enclosingRect a b).y = min a.y b.y
          ∧ (enclosingRect a b).x + (enclosingRect a b).width
              = max (a.x + a.width) (b.x + b.width)
          ∧ (enclosingRect a b).y + (enclosingRect a b).height
              = max (a.y + a.height) (b.y + b.height)
          ∧ 0 ≤ (enclosingRect a b).width ∧ 0 ≤ (enclosingRect a b).height
          ∧ (enclosingRect a b).encloses a ∧ (enclosingRect a b).encloses b
          ∧ ∀ r : cv.Rect, r.encloses a → r.encloses b → r.encloses (enclosingRect a b))
      ∧ (d._contours ≠ [] →
          (∀ c ∈ d._contours, ∃ poly : List cv.Point, poly ≠ [] ∧ c.bb = cv.boundingRect poly) →
          (∀ c ∈ d._contours, d.findEnclosingRect.encloses c.bb)
            ∧ ∀ r : cv.Rect, (∀ c ∈ d._contours, r.encloses c.bb) →
                r.encloses d.findEnclosingRect) := by
  constructor
  · intro a b ha hb _ _
    obtain ⟨hx, hy, hr, hbt⟩ := enclosingRect_spec a b
    obtain ⟨e1, e2, e3⟩ := enclosingRect_encloses a b
    refine ⟨hx, hy, hr, hbt, ?_, ?_, e1, e2, e3⟩
    · obtain ⟨q1, _, q3, _⟩ := e1
      omega
    · obtain ⟨_, q2, _, q4⟩ := e1
      omega
  · intro hne hbox
    have hpos : ∀ c ∈ d._contours, 0 < c.bb.width ∧ 0 < c.bb.height := by
      intro c hc
      obtain ⟨poly, hp, hbb⟩ := hbox c hc
      rw [hbb]
      exact boundingRect_positive poly hp
    unfold findEnclosingRect
    cases hcs : d._contours with
    | nil => exact absurd hcs hne
    | cons c cs =>
      rw [hcs] at hpos
      have hc := hpos c (List.mem_cons_self _ _)
      have hzero : cv.Rect.zero.area = 0 := rfl
      obtain ⟨i1, i2, i3⟩ := accumulate_boxes cs c.bb hc.1 hc.2
      simp only [List.foldl_cons, hzero, if_true]
      refine ⟨?_, ?_⟩
      · intro c' hc'
        rcases List.mem_cons.1 hc' with h | h
        · rw [h]; exact i1
        · exact i2 c' h
      · intro r hall
        exact i3 r (hall c (List.mem_cons_self _ _))
          (fun c' hc' => hall c' (List.mem_cons_of_mem _ hc'))

/-- Witness for C13: the boxes `[0,0 21x21]` and `[640,350 21x21]` of the two retained
contours are the bounding rectangles of their points; the accumulated rectangle encloses
both and is enclosed by `[0,0 661x371]`, which encloses both; and the enclosing rectangle
of `[0,0 2x3]` and `[5,1 4x1]` has its right edge at `max 2 9`. -/
theorem findEnclosingRect_minimal_witness :
    twoBlobScene.findEnclosingRect.encloses cornerContour.bb
      ∧ twoBlobScene.findEnclosingRect.encloses centreContour.bb
      ∧ cv.Rect.encloses ⟨0, 0, 661, 371⟩ twoBlobScene.findEnclosingRect
      ∧ (enclosingRect ⟨0, 0, 2, 3⟩ ⟨5, 1, 4, 1⟩).x + (enclosingRect ⟨0, 0, 2, 3⟩ ⟨5, 1, 4, 1⟩).width
          = max ((0 : Int) + 2) (5 + 4) := by
  have hbox : ∀ c ∈ twoBlobScene._contours,
      ∃ poly : List cv.Point, poly ≠ [] ∧ c.bb = cv.boundingRect poly := by
    intro c hc
    simp only [twoBlobScene, List.mem_cons, List.mem_singleton, List.not_mem_nil,
      or_false] at hc
    rcases hc with h | h <;> rw [h]
    · exact ⟨cornerContour.points, by decide, by decide⟩
    · exact ⟨centreContour.points, by decide, by decide⟩
  have h := (findEnclosingRect_minimal twoBlobScene).2 (by decide) hbox
  refine ⟨h.1 cornerContour (List.mem_cons_self _ _),
    h.1 centreContour (List.mem_cons_of_mem _ (List.mem_cons_self _ _)), ?_,
    ((findEnclosingRect_minimal twoBlobScene).1 ⟨0, 0, 2, 3⟩ ⟨5, 1, 4, 1⟩
      (by decide) (by decide) (by decide) (by decide)).2.2.1⟩
  apply h.2
  intro c hc
  simp only [twoBlobScene, List.mem_cons, List.mem_singleton, List.not_mem_nil,
    or_false] at hc
  rcases hc with h | h <;> rw [h] <;> decide

end MotionDetector

/-! ## Theorems: the capture stage -/

namespace CaptureThread

/-- C11, evaluated on the code: a failed read clears `running`, and the empty frame is
still passed to `try_push`. In the scenario the tracking thread holds the captured frame
and the queue is empty; after the failed read the queue holds the empty frame, and the
tracking thread's next iteration pops it, so the frame it holds and the detector's current
frame are the empty image. -/
theorem failed_read_pushes_empty_frame :
    (∀ t : CaptureThread, (t.runStep none).running = false)
      ∧ (∀ t : CaptureThread, (t.runStep none).images = t.images.try_push Image.none)
      ∧ pipelineHoldingFrame.tracker.background = cameraFrame 1
      ∧ pipelineHoldingFrame.capture.images._queue = []
      ∧ pipelineAfterFailedRead.capture.running = false
      ∧ pipelineAfterFailedRead.capture.images._queue = [Image.none]
      ∧ (pipelineAfterFailedRead.trackStep []).tracker.background = Image.none
      ∧ (pipelineAfterFailedRead.trackStep []).tracker.detector._curr_frame.empty = true
      ∧ (pipelineAfterFailedRead.captureStep (some (cameraFrame 2))).capture.images._queue
          = [Image.none] := by
  refine ⟨fun _ => rfl, fun _ => rfl, ?_, ?_, ?_, ?_, ?_, ?_, ?_⟩ <;> decide

end CaptureThread

/-! ## Theorems: the fixed-step game loop -/

theorem subStepLoop_idle {σ : Type} (update : σ → ℚ → σ) (fuel : Nat) (dt : ℚ) (g : σ)
    (hdt : dt ≤ UPDATE_STEP_S) :
    subStepLoop update (fuel + 1) dt g
      = { dt := dt, arkanoid := g, updates := 0, finished := true } := by
  simp only [subStepLoop]
  rw [if_neg (not_lt.2 hdt)]

theorem subStepLoop_bounded {σ : Type} (update : σ → ℚ → σ) (n : Nat) (dt : ℚ) (g : σ)
    (hn : dt ≤ UPDATE_STEP_S + n * UPDATE_STEP_S) :
    ∃ k : Nat, k ≤ n
      ∧ (∀ fuel, k < fuel →
          subStepLoop update fuel dt g
            = { dt := dt - k * UPDATE_STEP_S
                arkanoid := (fun x => update x UPDATE_STEP_S)^[k] g
                updates := k
                finished := true })
      ∧ dt - k * UPDATE_STEP_S ≤ UPDATE_STEP_S
      ∧ (dt ≤ UPDATE_STEP_S → k = 0)
      ∧ (UPDATE_STEP_S < dt → 0 < k ∧ 0 < dt - k * UPDATE_STEP_S) := by
  induction n generalizing dt g with
  | zero =>
    have hdt : dt ≤ UPDATE_STEP_S := by simpa using hn
    refine ⟨0, le_refl _, ?_, by simpa using hdt, fun _ => rfl, fun h => absurd h (not_lt.2 hdt)⟩
    intro fuel hf
    obtain ⟨f, rfl⟩ : ∃ f, fuel = f + 1 := ⟨fuel - 1, by omega⟩
    rw [subStepLoop_idle update f dt g hdt]
    simp
  | succ n ih =>
    by_cases hdt : dt ≤ UPDATE_STEP_S
    · refine ⟨0, Nat.zero_le _, ?_, by simpa using hdt, fun _ => rfl,
        fun h => absurd h (not_lt.2 hdt)⟩
      intro fuel hf
      obtain ⟨f, rfl⟩ : ∃ f, fuel = f + 1 := ⟨fuel - 1, by omega⟩
      rw [subStepLoop_idle update f dt g hdt]
      simp
    · have hgt : dt > UPDATE_STEP_S := not_le.1 hdt
      have hstep : (0 : ℚ) < UPDATE_STEP_S := by norm_num [UPDATE_STEP_S]
      have hn2 : dt - UPDATE_STEP_S ≤ UPDATE_STEP_S + n * UPDATE_STEP_S := by
        push_cast at hn
        linarith
      obtain ⟨k, hk, hrun, hle, hzero, hpos⟩ :=
        ih (dt - UPDATE_STEP_S) (update g UPDATE_STEP_S) hn2
      refine ⟨k + 1, Nat.succ_le_succ hk, ?_, ?_, ?_, ?_⟩
      · intro fuel hf
        obtain ⟨f, rfl⟩ : ∃ f, fuel = f + 1 := ⟨fuel - 1, by omega⟩
        simp only [subStepLoop]
        rw [if_pos hgt, hrun f (by omega)]
        simp only [Function.iterate_succ, Function.comp_apply, SubSteps.mk.injEq, and_true,
          true_and]
        push_cast
        ring
      · push_cast
        linarith
      · intro h
        exact absurd h hdt
      · intro _
        refine ⟨Nat.succ_pos _, ?_⟩
        push_cast
        by_cases h2 : dt - UPDATE_STEP_S ≤ UPDATE_STEP_S
        · rw [hzero h2]
          simp only [Nat.cast_zero, zero_add, one_mul]
          linarith
        · have := (hpos (not_le.1 h2)).2
          linarith

theorem iterations_idle {σ : Type} (update : σ → ℚ → σ) (fuel : Nat) (es : List ℚ)
    (st : GameLoop σ) (hnn : ∀ e ∈ es, 0 ≤ e) (hsum : st.dt + es.sum ≤ UPDATE_STEP_S) :
    es.foldl (GameLoop.iteration update (fuel + 1)) st
      = { dt := st.dt + es.sum, arkanoid := st.arkanoid, updates := st.updates } := by
  induction es generalizing st with
  | nil => simp
  | cons e rest ih =>
    have hrest : 0 ≤ rest.sum :=
      List.sum_nonneg (fun x hx => hnn x (List.mem_cons_of_mem _ hx))
    rw [List.sum_cons] at hsum
    have hstep : GameLoop.iteration update (fuel + 1) st e
        = { dt := st.dt + e, arkanoid := st.arkanoid, updates := st.updates } := by
      simp only [GameLoop.iteration]
      rw [subStepLoop_idle update fuel (st.dt + e) st.arkanoid (by linarith)]
      simp
    rw [List.foldl_cons, hstep,
      ih _ (fun x hx => hnn x (List.mem_cons_of_mem _ hx)) (by simp only []; linarith)]
    simp only [List.sum_cons, GameLoop.mk.injEq, and_true]
    ring

/-- C14. Over exact arithmetic, with the fixed step `s = 1/60 > 0`: for every accumulated
time `dt` the sub-step loop ends after some finite number `k` of updates (every iteration
budget above `k` reaches the end), the simulation has received `k` updates of exactly `s`,
the accumulator is `dt - k * s` and at most `s`, and `k = 0` when `dt <= s`; starting from
the accumulator `-3`, iterations whose measured times are non-negative and sum to at most 3
perform no update. -/
theorem fixed_step_accumulation {σ : Type} (update : σ → ℚ → σ) (dt : ℚ) (g : σ) :
    UPDATE_STEP_S = 1 / 60 ∧ 0 < UPDATE_STEP_S
      ∧ (∃ k : Nat,
          (∀ fuel, k < fuel →
            subStepLoop update fuel dt g
              = { dt := dt - k * UPDATE_STEP_S
                  arkanoid := (fun x => update x UPDATE_STEP_S)^[k] g
                  updates := k
                  finished := true })
          ∧ dt - k * UPDATE_STEP_S ≤ UPDATE_STEP_S
          ∧ (dt ≤ UPDATE_STEP_S → k = 0)
          ∧ (UPDATE_STEP_S < dt → 0 < k ∧ 0 < dt - k * UPDATE_STEP_S))
      ∧ (∀ (es : List ℚ) (fuel : Nat), 0 < fuel → (∀ e ∈ es, 0 ≤ e) → es.sum ≤ 3 →
          es.foldl (GameLoop.iteration update fuel) (GameLoop.init g)
            = { dt := -3 + es.sum, arkanoid := g, updates := 0 }) := by
  have hstep : (0 : ℚ) < UPDATE_STEP_S := by norm_num [UPDATE_STEP_S]
  refine ⟨rfl, hstep, ?_, ?_⟩
  · obtain ⟨n, hn⟩ := exists_nat_ge ((dt - UPDATE_STEP_S) / UPDATE_STEP_S)
    have hn2 : dt ≤ UPDATE_STEP_S + n * UPDATE_STEP_S := by
      rw [div_le_iff₀ hstep] at hn
      linarith
    obtain ⟨k, _, h1, h2, h3, h4⟩ := subStepLoop_bounded update n dt g hn2
    exact ⟨k, h1, h2, h3, h4⟩
  · intro es fuel hf hnn hsum
    obtain ⟨f, rfl⟩ : ∃ f, fuel = f + 1 := ⟨fuel - 1, by omega⟩
    exact iterations_idle update f es (GameLoop.init g) hnn (by
      simp only [GameLoop.init]
      linarith)

/-- Witness for C14: measured times 1, 1 and 1/2 seconds after the start leave the
accumulator at `-1/2` with no update made. -/
theorem fixed_step_accumulation_witness :
    [(1 : ℚ), 1, 1 / 2].foldl (GameLoop.iteration (fun (n : Nat) _ => n + 1) 1)
        (GameLoop.init 0)
      = { dt := -1 / 2, arkanoid := 0, updates := 0 } := by
  have h := (fixed_step_accumulation (fun (n : Nat) _ => n + 1) 0 0).2.2.2
    [(1 : ℚ), 1, 1 / 2] 1 (by decide)
    (by
      intro e he
      simp only [List.mem_cons, List.mem_singleton, List.not_mem_nil, or_false] at he
      rcases he with h | h | h <;> rw [h] <;> norm_num)
    (by norm_num)
  rw [h]
  norm_num
